import Mathlib

/-!
# Pi-Weather-Hub: a shallow embedding of the worker and presenter logic

This file embeds, in Lean 4, the parts of the Pi-Weather-Hub repository that
the verified claims are about:

* `forecast_worker/aemet_updater.py` — the forecast polling cycle
  (`_update_forecast`, `_aemet_request`) and the rolling radar file set
  (`_radar_files_manager`);
* `gui/gui_modules/_aemet_forecast_manager.py` — the forecast presenter
  (`update_daily_forecasts`, `update_hourly_forecasts`, `reset_hour_index`,
  `move_hour_index` and their private helpers);
* `measurements_workers/sensor_updater.py` — the sensor history merge
  (`_combine_and_filter_data`) and statistics (`_process_stadistics`);
* `measurements_workers/sheet_updater.py` — the spreadsheet polling cycle
  (`run`, `_store_values`, `_process_stadistics`).

Modelling conventions:

* Python exceptions are modelled with `Except Exc`; where the original code
  mutates `self` before a possible raise, the error value carries the
  partially mutated state (`Except (Exc × State) ...`).
* `datetime` instants are modelled as integers counting seconds (only their
  linear order and fixed-width day offsets matter to the code under study);
  string-to-value parsing done by `datetime.fromisoformat`, `strptime`,
  `numpy` dtype conversion and `int()` is abstracted: the embedded data
  carries the parse result (an `Option` where the code can be fed an
  unparseable string that matters to a claim, the parsed value otherwise).
* Measured values (`float` readings) are modelled as rationals: the code
  only ever compares and divides them.
* The network is a parameter: a function from URL to the outcome of
  `requests.get`.
-/

/-- Kinds of Python exception that the embedded code can raise or catch. -/
inductive Exc
  | indexError
  | keyError
  | valueError
  | typeError
  | jsonDecodeError
  | connectionError
  | chunkedEncodingError
  | unboundLocalError
  | serverNotFound
  | httpError
  | socketTimeout
  | gaierror
deriving DecidableEq, Repr

deriving instance DecidableEq for Except

/-- Python list indexing `l[i]` for non-negative `i`: raises `IndexError`
when out of range. -/
def pyGet (l : List α) (i : Nat) : Except Exc α :=
  match l[i]? with
  | some x => .ok x
  | none => .error .indexError

theorem pyGet_ok {l : List α} {i : Nat} {x : α} (h : l[i]? = some x) :
    pyGet l i = .ok x := by
  simp [pyGet, h]

/-- Lexicographic comparison of code-point sequences: the order Python's
`sorted` uses on `str` (shorter prefix first). -/
def charsLe : List Char → List Char → Bool
  | [], _ => true
  | _ :: _, [] => false
  | a :: as, b :: bs => if a < b then true else if a == b then charsLe as bs else false

/-- Python's `str` ordering, as a proposition. -/
def strLE (a b : String) : Prop := charsLe a.data b.data = true

instance : DecidableRel strLE := fun a b => by unfold strLE; infer_instance

theorem charsLe_refl : ∀ l : List Char, charsLe l l = true := by
  intro l
  induction l with
  | nil => rfl
  | cons a as ih => simp [charsLe, ih]

theorem charsLe_total : ∀ a b : List Char, charsLe a b = true ∨ charsLe b a = true := by
  intro a
  induction a with
  | nil => intro b; left; rfl
  | cons x xs ih =>
    intro b
    cases b with
    | nil => right; rfl
    | cons y ys =>
      rcases lt_trichotomy x y with h | h | h
      · left; simp [charsLe, h]
      · subst h
        rcases ih ys with h2 | h2
        · left; simp [charsLe, h2]
        · right; simp [charsLe, h2]
      · right; simp [charsLe, h]

theorem charsLe_antisymm : ∀ a b : List Char,
    charsLe a b = true → charsLe b a = true → a = b := by
  intro a
  induction a with
  | nil =>
    intro b _ hba
    cases b with
    | nil => rfl
    | cons y ys => simp [charsLe] at hba
  | cons x xs ih =>
    intro b hab hba
    cases b with
    | nil => simp [charsLe] at hab
    | cons y ys =>
      rcases lt_trichotomy x y with h | h | h
      · have hyx : ¬ y < x := lt_asymm h
        simp [charsLe, hyx] at hba
        exact absurd hba.1 (ne_of_gt h)
      · subst h
        simp [charsLe] at hab hba
        exact congrArg (x :: ·) (ih ys hab hba)
      · have hxy : ¬ x < y := lt_asymm h
        simp [charsLe, hxy] at hab
        exact absurd hab.1 (ne_of_gt h)

theorem charsLe_trans : ∀ a b c : List Char,
    charsLe a b = true → charsLe b c = true → charsLe a c = true := by
  intro a
  induction a with
  | nil => intro b c _ _; rfl
  | cons x xs ih =>
    intro b c hab hbc
    cases b with
    | nil => simp [charsLe] at hab
    | cons y ys =>
      cases c with
      | nil => simp [charsLe] at hbc
      | cons z zs =>
        by_cases hxy : x < y
        · by_cases hyz : y < z
          · simp [charsLe, lt_trans hxy hyz]
          · by_cases hyzeq : y = z
            · subst hyzeq; simp [charsLe, hxy]
            · simp [charsLe, hyz] at hbc
              exact absurd hbc.1 hyzeq
        · by_cases hxyeq : x = y
          · subst hxyeq
            simp [charsLe, hxy] at hab
            by_cases hyz : x < z
            · simp [charsLe, hyz]
            · by_cases hyzeq : x = z
              · subst hyzeq
                simp [charsLe, hyz] at hbc ⊢
                exact ih ys zs hab hbc
              · simp [charsLe, hyz] at hbc
                exact absurd hbc.1 hyzeq
          · simp [charsLe, hxy] at hab
            exact absurd hab.1 hxyeq

instance : IsTotal String strLE :=
  ⟨fun a b => charsLe_total a.data b.data⟩

instance : IsTrans String strLE :=
  ⟨fun a b c => charsLe_trans a.data b.data c.data⟩

theorem strLE_antisymm {a b : String} (h1 : strLE a b) (h2 : strLE b a) : a = b := by
  have h := charsLe_antisymm a.data b.data h1 h2
  cases a; cases b
  exact congrArg String.mk h

/-! ## `forecast_worker/aemet_updater.py`: the rolling radar file set

`_radar_files_manager(url, resource_path, filename, max_files,
do_not_check_duplicate)` fetches an image (here abstracted as the already
obtained `data : Option Bytes`, `None` meaning the request failed), lists the
directory sorted by name, and either bootstraps an empty directory, skips a
byte-identical duplicate of the lexically-last file, or (evicting the
lexically-first file when at capacity) writes the new file. A directory is a
finite map from file name to content, embedded as an association list with
distinct keys; `dirWrite` models `open(path, 'wb')` (create or overwrite),
`dirRemove` models `os.remove`. -/

namespace AemetUpdater

/-- File contents (`bytes`). -/
abbrev Bytes := List Nat

/-- A directory: file name to content, names distinct. -/
abbrev Dir := List (String × Bytes)

def MAX_RADAR_FILES : Nat := 12

/-- Model of `open(dir + "/" + name, 'wb').write(content)`: create or overwrite. -/
def dirWrite (d : Dir) (name : String) (content : Bytes) : Dir :=
  (name, content) :: d.filter (fun e => e.1 != name)

/-- Model of `os.remove(dir + "/" + name)`. -/
def dirRemove (d : Dir) (name : String) : Dir :=
  d.filter (fun e => e.1 != name)

/-- Model of `sorted(os.listdir(resource_path))`. -/
def listdir (d : Dir) : List String :=
  List.insertionSort strLE (d.map Prod.fst)

/-- Model of `open(file, 'rb').read()` for a file known to be listed. -/
def dirRead (d : Dir) (name : String) : Option Bytes :=
  d.lookup name

/-- Model of `_radar_files_manager`, with the `_aemet_request` outcome passed in as
`data` (`none` = request failed) and the directory state passed explicitly.
Returns the new directory and `file_saved`. -/
def radar_files_manager (data : Option Bytes) (d : Dir) (filename : String)
    (max_files : Nat) (do_not_check_duplicate : Bool) : Dir × Bool :=
  match data with
  | none => (d, false)
  | some content =>
    match listdir d with
    | [] => (dirWrite d (filename ++ ".gif") content, true)
    | f :: fs =>
      let not_updated := dirRead d ((f :: fs).getLast (by simp)) == some content
      if (!not_updated) || do_not_check_duplicate then
        let d1 := if max_files ≤ (f :: fs).length then dirRemove d f else d
        (dirWrite d1 (filename ++ ".gif") content, true)
      else
        (d, false)

/-- One fetch-and-insert operation of the radar worker, as seen by the file
set: the fetch outcome, the target file name, and whether the duplicate check
is disabled (regional feed: enabled; national feed: disabled). -/
structure InsOp where
  fetch : Option Bytes
  name : String
  dncd : Bool
deriving DecidableEq, Repr

/-- A sequence of inserts starting from an empty directory, with the
configured capacity `MAX_RADAR_FILES = 12`. -/
def runInserts (ops : List InsOp) : Dir :=
  ops.foldl (fun d op => (radar_files_manager op.fetch d op.name MAX_RADAR_FILES op.dncd).1) []

/-- Predicate: `name` is the lexically greatest file name present in the directory. -/
def isLexLast (d : Dir) (name : String) : Prop :=
  name ∈ d.map Prod.fst ∧ ∀ x ∈ d.map Prod.fst, strLE x name

/-- Predicate: `name` is the lexically least file name present in the directory. -/
def isLexFirst (d : Dir) (name : String) : Prop :=
  name ∈ d.map Prod.fst ∧ ∀ x ∈ d.map Prod.fst, strLE name x

instance (d : Dir) (name : String) : Decidable (isLexLast d name) := by
  unfold isLexLast; infer_instance

instance (d : Dir) (name : String) : Decidable (isLexFirst d name) := by
  unfold isLexFirst; infer_instance

theorem length_listdir (d : Dir) : (listdir d).length = d.length := by
  have h := (List.perm_insertionSort strLE (d.map Prod.fst)).length_eq
  rw [listdir, h, List.length_map]

theorem mem_listdir {d : Dir} {x : String} : x ∈ listdir d ↔ x ∈ d.map Prod.fst :=
  (List.perm_insertionSort strLE (d.map Prod.fst)).mem_iff

theorem sorted_listdir (d : Dir) : (listdir d).Sorted strLE :=
  List.sorted_insertionSort strLE (d.map Prod.fst)

theorem sorted_le_getLast :
    ∀ (l : List String), l.Sorted strLE → ∀ x ∈ l, ∀ (hne : l ≠ []), strLE x (l.getLast hne) := by
  intro l
  induction l with
  | nil => intro _ x hx; exact absurd hx (List.not_mem_nil x)
  | cons a t ih =>
    intro hs x hx hne
    cases t with
    | nil =>
      rcases List.mem_singleton.mp hx with rfl
      exact charsLe_refl _
    | cons b t' =>
      rw [List.getLast_cons (by simp)]
      rcases List.mem_cons.mp hx with rfl | hx'
      · exact List.rel_of_sorted_cons hs _ (List.getLast_mem _)
      · exact ih hs.of_cons x hx' (by simp)

theorem sorted_head_le (a : String) (t : List String) (hs : (a :: t).Sorted strLE) :
    ∀ x ∈ a :: t, strLE a x := by
  intro x hx
  rcases List.mem_cons.mp hx with rfl | hx'
  · exact charsLe_refl _
  · exact List.rel_of_sorted_cons hs _ hx'

/-- The head of the sorted directory listing is exactly the lexically least
file name. -/
theorem listdir_head_isLexFirst {d : Dir} {f : String} {fs : List String}
    (h : listdir d = f :: fs) : isLexFirst d f := by
  constructor
  · refine mem_listdir.mp ?_
    rw [h]
    exact List.mem_cons_self f fs
  · intro x hx
    have hx' : x ∈ listdir d := mem_listdir.mpr hx
    rw [h] at hx'
    have hs := sorted_listdir d
    rw [h] at hs
    exact sorted_head_le f fs hs x hx'

/-- The last element of the sorted directory listing is exactly the lexically
greatest file name. -/
theorem listdir_getLast_isLexLast {d : Dir} {f : String} {fs : List String}
    (h : listdir d = f :: fs) : isLexLast d ((f :: fs).getLast (by simp)) := by
  constructor
  · refine mem_listdir.mp ?_
    rw [h]
    exact List.getLast_mem _
  · intro x hx
    have hx' : x ∈ listdir d := mem_listdir.mpr hx
    rw [h] at hx'
    have hs := sorted_listdir d
    rw [h] at hs
    exact sorted_le_getLast (f :: fs) hs x hx' (by simp)

theorem isLexLast_unique {d : Dir} {n m : String} (hn : isLexLast d n) (hm : isLexLast d m) :
    n = m :=
  strLE_antisymm (hm.2 n hn.1) (hn.2 m hm.1)

theorem isLexFirst_unique {d : Dir} {n m : String} (hn : isLexFirst d n) (hm : isLexFirst d m) :
    n = m :=
  strLE_antisymm (hn.2 m hm.1) (hm.2 n hn.1)

theorem length_dirWrite_le (d : Dir) (name : String) (content : Bytes) :
    (dirWrite d name content).length ≤ d.length + 1 := by
  simp only [dirWrite, List.length_cons]
  exact Nat.add_le_add_right (List.length_filter_le _ d) 1

theorem length_dirRemove_lt {d : Dir} {name : String} (h : name ∈ d.map Prod.fst) :
    (dirRemove d name).length < d.length := by
  rcases List.mem_map.mp h with ⟨e, he, rfl⟩
  exact List.length_filter_lt_length_iff_exists.mpr ⟨e, he, by simp⟩

theorem listdir_eq_nil_iff {d : Dir} : listdir d = [] ↔ d = [] := by
  constructor
  · intro h
    have := length_listdir d
    rw [h] at this
    exact List.length_eq_zero.mp this.symm
  · rintro rfl; rfl

/-- Single-step capacity preservation: an insert into a directory holding at
most `MAX_RADAR_FILES` files leaves at most `MAX_RADAR_FILES` files. -/
theorem radar_step_capacity (data : Option Bytes) (d : Dir) (name : String) (dncd : Bool)
    (hd : d.length ≤ MAX_RADAR_FILES) :
    (radar_files_manager data d name MAX_RADAR_FILES dncd).1.length ≤ MAX_RADAR_FILES := by
  match data with
  | none => simpa [radar_files_manager] using hd
  | some content =>
    rw [radar_files_manager]
    split
    · next h =>
      have hd0 : d = [] := listdir_eq_nil_iff.mp h
      subst hd0
      simp [dirWrite, MAX_RADAR_FILES]
    · next f fs h =>
      by_cases hw : (!(dirRead d ((f :: fs).getLast (by simp)) == some content)) || dncd
      · simp only [hw, if_true]
        by_cases hcap : MAX_RADAR_FILES ≤ (f :: fs).length
        · have hflen : (f :: fs).length = d.length := by
            rw [← h]; exact length_listdir d
          have hmem : f ∈ d.map Prod.fst := (listdir_head_isLexFirst h).1
          have hrem : (dirRemove d f).length < d.length := length_dirRemove_lt hmem
          have : (dirWrite (dirRemove d f) (name ++ ".gif") content).length ≤
              (dirRemove d f).length + 1 := length_dirWrite_le _ _ _
          simp only [hcap, if_true]
          omega
        · have hflen : (f :: fs).length = d.length := by
            rw [← h]; exact length_listdir d
          have : (dirWrite d (name ++ ".gif") content).length ≤ d.length + 1 :=
            length_dirWrite_le _ _ _
          simp only [hcap, if_false]
          omega
      · simpa [hw] using hd

theorem runInserts_capacity (ops : List InsOp) :
    (runInserts ops).length ≤ MAX_RADAR_FILES := by
  suffices h : ∀ (ops : List InsOp) (d : Dir), d.length ≤ MAX_RADAR_FILES →
      (ops.foldl (fun d op =>
        (radar_files_manager op.fetch d op.name MAX_RADAR_FILES op.dncd).1) d).length ≤
        MAX_RADAR_FILES by
    exact h ops [] (by simp [MAX_RADAR_FILES])
  intro ops
  induction ops with
  | nil => intro d hd; simpa using hd
  | cons op rest ih =>
    intro d hd
    exact ih _ (radar_step_capacity op.fetch d op.name op.dncd hd)

/-- Inserting while a lexically greatest file `las` holds exactly the fetched
bytes, with the duplicate check enabled, writes nothing and reports no
update. -/
theorem radar_dedup_skip {d : Dir} {c : Bytes} {name las : String}
    (hlast : isLexLast d las) (hread : dirRead d las = some c) :
    radar_files_manager (some c) d name MAX_RADAR_FILES false = (d, false) := by
  have hdne : d ≠ [] := by
    intro h0
    subst h0
    simp [isLexLast] at hlast
  rw [radar_files_manager]
  cases hls : listdir d with
  | nil => exact absurd (listdir_eq_nil_iff.mp hls) hdne
  | cons f fs =>
    have hgl : (f :: fs).getLast (by simp) = las :=
      isLexLast_unique (listdir_getLast_isLexLast hls) hlast
    simp [hgl, hread]

/-- Inserting into an empty directory with a successful fetch writes exactly
one file and reports a save. -/
theorem radar_bootstrap (c : Bytes) (name : String) (dncd : Bool) :
    radar_files_manager (some c) [] name MAX_RADAR_FILES dncd =
      ([(name ++ ".gif", c)], true) := rfl

/-- When the directory is at capacity and the insert actually saves a file,
the lexically least file is removed and the new file written. -/
theorem radar_evict_first {d : Dir} {c : Bytes} {name first : String} {dncd : Bool}
    (hlen : d.length = MAX_RADAR_FILES) (hfirst : isLexFirst d first)
    (hsaved : (radar_files_manager (some c) d name MAX_RADAR_FILES dncd).2 = true) :
    (radar_files_manager (some c) d name MAX_RADAR_FILES dncd).1 =
      dirWrite (dirRemove d first) (name ++ ".gif") c := by
  have hdne : d ≠ [] := by
    intro h0
    subst h0
    simp [MAX_RADAR_FILES] at hlen
  rw [radar_files_manager] at hsaved ⊢
  cases hls : listdir d with
  | nil => exact absurd (listdir_eq_nil_iff.mp hls) hdne
  | cons f fs =>
    rw [hls] at hsaved
    have hflen : (f :: fs).length = d.length := by
      rw [← hls]
      exact length_listdir d
    have hcap : MAX_RADAR_FILES ≤ (f :: fs).length := by
      rw [hflen, hlen]
    simp only [List.length_cons] at hcap
    have hf : f = first := isLexFirst_unique (listdir_head_isLexFirst hls) hfirst
    subst hf
    by_cases hdup : dirRead d ((f :: fs).getLast (by simp)) = some c
    · cases hdn : dncd with
      | true => simp [hdup, hdn, hcap]
      | false =>
        rw [hdn] at hsaved
        simp [hdup] at hsaved
    · simp [hdup, hcap]

/-! ## `forecast_worker/aemet_updater.py`: `_aemet_request` and `_update_forecast`

`_aemet_request(url)` performs the two-step AEMET fetch inside a
`try`/`except (ConnectionError, KeyError, ChunkedEncodingError)` whose
`finally` block ends in `return output`. When an exception outside the caught
tuple is raised inside `try` (for instance a JSON decode error from
`response.json()`), the local `output` has not been assigned yet, so the
`return output` in `finally` raises `UnboundLocalError` (replacing the
original exception), which propagates to the caller. The embedding models
this faithfully.

The network is a function from URL to the outcome of `requests.get`:
either a raised exception or a response with a status code and a body. -/

/-- A JSON body as far as the code inspects it: unparseable, a dict with or
without the `'datos'` key, or an array (of opaque forecast payloads). -/
inductive Body
  | malformed
  | objNoDatos
  | objDatos (datos : String)
  | arr (xs : List String)
deriving DecidableEq, Repr

/-- A `requests` response: HTTP status code plus body. -/
structure HResp where
  status : Nat
  body : Body
deriving DecidableEq, Repr

/-- The network: what `requests.get url` does. `.error e` is a raised
exception. -/
abbrev Net := String → Except Exc HResp

/-- The exception classes named in `_aemet_request`'s `except` clause. -/
def caught_by_aemet (e : Exc) : Bool :=
  e == .connectionError || e == .keyError || e == .chunkedEncodingError

/-- Model of `_aemet_request(url)`: metadata request, status check, `'datos'` lookup,
data request, status check; caught exceptions yield `None`; any uncaught
exception is masked by the `return output` in `finally` into an
`UnboundLocalError` that propagates. -/
def aemet_request (net : Net) (url : String) : Except Exc (Option HResp) :=
  let tryResult : Except Exc (Option HResp) :=
    match net url with
    | .error e => .error e
    | .ok response =>
      if response.status == 200 then
        match response.body with
        | .malformed => .error .jsonDecodeError
        | .objNoDatos => .error .keyError
        | .arr _ => .error .typeError
        | .objDatos datos =>
          match net datos with
          | .error e => .error e
          | .ok data => if data.status == 200 then .ok (some data) else .ok none
      else .ok none
  match tryResult with
  | .ok output => .ok output
  | .error e => if caught_by_aemet e then .ok none else .error .unboundLocalError

def daily_url : String :=
  "https://opendata.aemet.es/opendata/api/prediccion/especifica/municipio/diaria/29067"

def hourly_url : String :=
  "https://opendata.aemet.es/opendata/api/prediccion/especifica/municipio/horaria/29067"

/-- The forecast channel payload (`self.forecast` shared dict, whose
`'daily'`/`'hourly'` keys may still be unset) together with the sticky
`forecast_ready` event. -/
structure ForecastState where
  daily : Option String
  hourly : Option String
  ready : Bool
deriving DecidableEq, Repr

/-- Model of `response.json()[0]`: decode the body and take its first element. A
non-array dict raises `KeyError` (integer key absent), an empty array raises
`IndexError`, an unparseable body raises a JSON decode error. -/
def json_first : Body → Except Exc String
  | .malformed => .error .jsonDecodeError
  | .objNoDatos => .error .keyError
  | .objDatos _ => .error .keyError
  | .arr [] => .error .indexError
  | .arr (x :: _) => .ok x

/-- The body of `_update_forecast` after the two `_aemet_request` calls
(whose results, including a raised exception, are the first two arguments):
each successful request updates its half of the payload via `.json()[0]`,
and the ready event is set when at least one request succeeded. -/
def update_forecast_core (temp_daily temp_hourly : Except Exc (Option HResp))
    (st : ForecastState) : Except Exc ForecastState :=
  match temp_daily with
  | .error e => .error e
  | .ok temp_daily =>
    match temp_hourly with
    | .error e => .error e
    | .ok temp_hourly =>
      let step1 : Except Exc ForecastState :=
        match temp_daily with
        | some data =>
          match json_first data.body with
          | .error e => .error e
          | .ok v => .ok { st with daily := some v }
        | none => .ok st
      match step1 with
      | .error e => .error e
      | .ok st1 =>
        let step2 : Except Exc ForecastState :=
          match temp_hourly with
          | some data =>
            match json_first data.body with
            | .error e => .error e
            | .ok v => .ok { st1 with hourly := some v }
          | none => .ok st1
        match step2 with
        | .error e => .error e
        | .ok st2 =>
          if temp_daily.isSome || temp_hourly.isSome then
            .ok { st2 with ready := true }
          else
            .ok st2

/-- Model of `_update_forecast`: both requests are issued (under the channel lock),
then the payload and ready event are updated. Any exception propagates (in
Python the shared dict can then be left partially updated; no claim observes
that intermediate state, so the embedding reports just the exception). -/
def update_forecast (net : Net) (st : ForecastState) : Except Exc ForecastState :=
  update_forecast_core (aemet_request net daily_url) (aemet_request net hourly_url) st

/-- The outcome of `requests.get u` (and, two-step, of the data fetch it
redirects to) only exhibits failure modes that `_aemet_request` and
`_update_forecast` handle: raised exceptions are in the caught tuple, a 200
metadata body either lacks the `'datos'` key (the `KeyError` is caught) or
redirects benignly, and any fetched body reached by `.json()[0]` is a
non-empty array. -/
def benign (net : Net) (u : String) : Prop :=
  match net u with
  | .error e => caught_by_aemet e = true
  | .ok response =>
    response.status ≠ 200 ∨
    response.body = .objNoDatos ∨
    ∃ datos, response.body = .objDatos datos ∧
      (match net datos with
       | .error e => caught_by_aemet e = true
       | .ok data => data.status ≠ 200 ∨ ∃ x xs, data.body = .arr (x :: xs))

/-- Whether `_aemet_request net u` succeeds (returns a response object). -/
def request_ok (net : Net) (u : String) : Bool :=
  match aemet_request net u with
  | .ok (some _) => true
  | _ => false

/-- A network on which every request raises `ConnectionError` (a handled
failure). -/
def net_conn_fail : Net := fun _ => .error .connectionError

/-- A network on which every request returns HTTP 200 with an unparseable
body. -/
def net_malformed : Net := fun _ => .ok ⟨200, .malformed⟩

/-- A network on which every request returns HTTP 200 with a JSON dict that
lacks the `'datos'` key (the `KeyError` is caught; the request reports
`None`). -/
def net_no_datos : Net := fun _ => .ok ⟨200, .objNoDatos⟩

theorem aemet_request_of_benign {net : Net} {u : String} (h : benign net u) :
    aemet_request net u = .ok none ∨
    ∃ d x xs, aemet_request net u = .ok (some d) ∧ d.body = .arr (x :: xs) := by
  unfold benign at h
  cases hu : net u with
  | error e =>
    rw [hu] at h
    left
    simp [aemet_request, hu, h]
  | ok response =>
    rw [hu] at h
    by_cases hs : response.status == 200
    · rcases h with h200 | hnodatos | ⟨datos, hbody, hdata⟩
      · exact absurd (by simpa using hs) h200
      · left
        simp [aemet_request, hu, hs, hnodatos, caught_by_aemet]
      · cases hd : net datos with
        | error e =>
          rw [hd] at hdata
          left
          simp [aemet_request, hu, hs, hbody, hd, hdata]
        | ok data =>
          rw [hd] at hdata
          rcases hdata with h200d | ⟨x, xs, harr⟩
          · left
            have hds : ¬ data.status == 200 := by simpa using h200d
            simp [aemet_request, hu, hs, hbody, hd, hds]
          · by_cases hds : data.status == 200
            · right
              exact ⟨data, x, xs, by simp [aemet_request, hu, hs, hbody, hd, hds], harr⟩
            · left
              simp [aemet_request, hu, hs, hbody, hd, hds]
    · left
      simp [aemet_request, hu, hs]

theorem update_forecast_ok_spec (net : Net) (st st' : ForecastState)
    (h : update_forecast net st = .ok st') :
    (aemet_request net daily_url = .ok none → st'.daily = st.daily) ∧
    (aemet_request net hourly_url = .ok none → st'.hourly = st.hourly) ∧
    st'.ready = (st.ready || request_ok net daily_url || request_ok net hourly_url) := by
  unfold update_forecast at h
  unfold request_ok
  cases hd : aemet_request net daily_url with
  | error e => rw [hd] at h; exact absurd h (by simp [update_forecast_core])
  | ok temp_daily =>
    rw [hd] at h
    cases hh : aemet_request net hourly_url with
    | error e => rw [hh] at h; exact absurd h (by simp [update_forecast_core])
    | ok temp_hourly =>
      rw [hh] at h
      cases temp_daily with
      | none =>
        cases temp_hourly with
        | none =>
          simp only [update_forecast_core, Option.isSome_none, Bool.or_self,
            Bool.false_eq_true, if_false, Except.ok.injEq] at h
          subst h
          simp
        | some dh =>
          cases jh : json_first dh.body with
          | error e =>
            rw [update_forecast_core] at h
            simp only [jh] at h
            exact absurd h (by simp)
          | ok v =>
            rw [update_forecast_core] at h
            simp only [jh, Option.isSome_none, Option.isSome_some, Bool.false_or, if_true,
              Except.ok.injEq] at h
            subst h
            simp
      | some dd =>
        cases jd : json_first dd.body with
        | error e =>
          rw [update_forecast_core] at h
          simp only [jd] at h
          exact absurd h (by simp)
        | ok vd =>
          cases temp_hourly with
          | none =>
            rw [update_forecast_core] at h
            simp only [jd, Option.isSome_some, Option.isSome_none, Bool.or_false, if_true,
              Except.ok.injEq] at h
            subst h
            exact ⟨(by intro hc; simp at hc), (fun _ => rfl), (by simp)⟩
          | some dh =>
            cases jh : json_first dh.body with
            | error e =>
              rw [update_forecast_core] at h
              simp only [jd, jh] at h
              exact absurd h (by simp)
            | ok vh =>
              rw [update_forecast_core] at h
              simp only [jd, jh, Option.isSome_some, Bool.or_self, if_true,
                Except.ok.injEq] at h
              subst h
              exact ⟨(by intro hc; simp at hc), (by intro hc; simp at hc), (by simp)⟩

theorem update_forecast_of_benign (net : Net) (st : ForecastState)
    (hd : benign net daily_url) (hh : benign net hourly_url) :
    ∃ st', update_forecast net st = .ok st' := by
  unfold update_forecast
  rcases aemet_request_of_benign hd with hdr | ⟨d, x, xs, hdr, hdb⟩
  · rcases aemet_request_of_benign hh with hhr | ⟨dh, y, ys, hhr, heb⟩
    · exact ⟨st, by rw [hdr, hhr]; rfl⟩
    · refine ⟨⟨st.daily, some y, true⟩, ?_⟩
      rw [hdr, hhr, update_forecast_core]
      simp [heb, json_first]
  · rcases aemet_request_of_benign hh with hhr | ⟨dh, y, ys, hhr, heb⟩
    · refine ⟨⟨some x, st.hourly, true⟩, ?_⟩
      rw [hdr, hhr, update_forecast_core]
      simp [hdb, json_first]
    · refine ⟨⟨some x, some y, true⟩, ?_⟩
      rw [hdr, hhr, update_forecast_core]
      simp [hdb, heb, json_first]

end AemetUpdater

/-! ## `measurements_workers/sensor_updater.py` and `sheet_updater.py`

Timestamps are integers counting seconds (`datetime64` instants); measured
values are rationals. `np.amax`/`np.amin` on a possibly empty slice are
`npamax`/`npamin` (raising `ValueError` on an empty input, as numpy does). -/

def oneDay : Int := 24 * 60 * 60

def sevenDays : Int := 7 * 24 * 60 * 60

/-- Model of `np.amax` over a list (raises on empty input). -/
def npamax : List ℚ → Except Exc ℚ
  | [] => .error .valueError
  | x :: xs => .ok (xs.foldl max x)

/-- Model of `np.amin` over a list (raises on empty input). -/
def npamin : List ℚ → Except Exc ℚ
  | [] => .error .valueError
  | x :: xs => .ok (xs.foldl min x)

/-- Specification-side view: the values of exactly those `(timestamp, value)`
entries whose timestamp is strictly newer than `newest − 24h`. -/
def values_within_24h (ts : List Int) (vals : List ℚ) (newest : Int) : List ℚ :=
  ((ts.zip vals).filter (fun p => newest - oneDay < p.1)).map Prod.snd

/-- Specification-side view: `m` is the maximum of the collection `l`. -/
def isMaxOf (m : ℚ) (l : List ℚ) : Prop := m ∈ l ∧ ∀ x ∈ l, x ≤ m

/-- Specification-side view: `m` is the minimum of the collection `l`. -/
def isMinOf (m : ℚ) (l : List ℚ) : Prop := m ∈ l ∧ ∀ x ∈ l, m ≤ x

instance (m : ℚ) (l : List ℚ) : Decidable (isMaxOf m l) := by
  unfold isMaxOf; infer_instance

instance (m : ℚ) (l : List ℚ) : Decidable (isMinOf m l) := by
  unfold isMinOf; infer_instance

namespace SensorUpdater

/-- One row of the on-disk sensor history CSV:
`[timestamp, temperature, humidity]` (the timestamp abstracted to its parsed
`datetime64` value; the measured columns kept as the strings read from
disk). -/
structure Entry where
  ts : Int
  temp : String
  hum : String
deriving DecidableEq, Repr

/-- Model of `_combine_and_filter_data(current_reading, previous_sensor_data)`:
prepend the new reading, then keep the prefix whose length is the number of
timestamps strictly newer than `dates[0] - 7 days` (`dates[0]` being the
just-prepended reading's timestamp). -/
def combine_and_filter_data (current : Entry) (previous : List Entry) : List Entry :=
  let temp_sensor_data := current :: previous
  let dates := temp_sensor_data.map (fun e => e.ts)
  let last_7days := dates.filter (fun t => current.ts - sevenDays < t)
  temp_sensor_data.take last_7days.length

/-- The sensor shared-dict columns (`sensor_variables`). -/
structure SensorVars where
  timestamp : List Int
  temperature : List ℚ
  humidity : List ℚ
deriving DecidableEq, Repr

/-- The sensor statistics dict (`sensor_stadistics`). -/
structure SensorStats where
  current_temperature : ℚ
  current_humidity : ℚ
  max_temperature : ℚ
  min_temperature : ℚ
  max_humidity : ℚ
  min_humidity : ℚ
deriving DecidableEq, Repr

/-- Model of `_process_stadistics` of the sensor worker: current values are the
newest (index 0) entries; the 24-hour extrema are taken over the prefix
whose length is the number of timestamps strictly newer than
`dates[0] - 1 day`. On a raise the shared dict may be left partially
updated in Python; no claim observes that intermediate state, so the
embedding reports just the exception. -/
def process_stadistics (v : SensorVars) : Except Exc SensorStats :=
  match pyGet v.temperature 0 with
  | .error e => .error e
  | .ok current_temperature =>
  match pyGet v.humidity 0 with
  | .error e => .error e
  | .ok current_humidity =>
  match pyGet v.timestamp 0 with
  | .error e => .error e
  | .ok t0 =>
  let last_24h := v.timestamp.filter (fun t => t0 - oneDay < t)
  match npamax (v.temperature.take last_24h.length) with
  | .error e => .error e
  | .ok max_temperature =>
  match npamin (v.temperature.take last_24h.length) with
  | .error e => .error e
  | .ok min_temperature =>
  match npamax (v.humidity.take last_24h.length) with
  | .error e => .error e
  | .ok max_humidity =>
  match npamin (v.humidity.take last_24h.length) with
  | .error e => .error e
  | .ok min_humidity =>
    .ok ⟨current_temperature, current_humidity, max_temperature, min_temperature,
      max_humidity, min_humidity⟩

end SensorUpdater

namespace SheetUpdater

/-- The spreadsheet shared-dict columns (`sheet_variables`). -/
structure SheetVars where
  timestamp : List Int
  temperature : List ℚ
  humidity : List ℚ
  pressure : List ℚ
deriving DecidableEq, Repr

/-- The spreadsheet statistics dict (`sheet_stadistics`). The source
computes no 24-hour extrema for pressure. -/
structure SheetStats where
  current_temperature : ℚ
  current_humidity : ℚ
  current_pressure : ℚ
  max_temperature : ℚ
  min_temperature : ℚ
  max_humidity : ℚ
  min_humidity : ℚ
deriving DecidableEq, Repr

/-- The state the sheet worker owns: the two shared dicts and the sticky
`sheet_ready` event. -/
structure SheetState where
  sheet_variables : SheetVars
  sheet_stadistics : SheetStats
  ready : Bool
deriving DecidableEq, Repr

/-- The column-major table fetched from the spreadsheet, each cell
abstracted to its parse result (`none`: the string does not parse, so
`strptime` or the numpy float conversion would raise `ValueError`). -/
structure RawValues where
  timestamps : List (Option Int)
  temperature : List (Option ℚ)
  humidity : List (Option ℚ)
  pressure : List (Option ℚ)
deriving DecidableEq, Repr

/-- Parse every cell of a column; a single unparseable cell raises
`ValueError`. -/
def parse_cells : List (Option α) → Except Exc (List α)
  | [] => .ok []
  | none :: _ => .error .valueError
  | some x :: rest =>
    match parse_cells rest with
    | .error e => .error e
    | .ok xs => .ok (x :: xs)

/-- Model of `_store_values(values)`: convert the timestamp column, the three numeric
columns (pressure divided by 100, Pa to hPa), and store them. Returns the
new `sheet_variables` contents. -/
def store_values (values : RawValues) : Except Exc SheetVars :=
  match parse_cells values.timestamps with
  | .error e => .error e
  | .ok ts =>
  match parse_cells values.temperature with
  | .error e => .error e
  | .ok temps =>
  match parse_cells values.humidity with
  | .error e => .error e
  | .ok hums =>
  match parse_cells values.pressure with
  | .error e => .error e
  | .ok press =>
    .ok ⟨ts, temps, hums, press.map (fun x => x / 100)⟩

/-- Model of `_process_stadistics` of the sheet worker (same computation as the
sensor worker's, plus the current pressure; no pressure extrema). -/
def process_stadistics (v : SheetVars) : Except Exc SheetStats :=
  match pyGet v.temperature 0 with
  | .error e => .error e
  | .ok current_temperature =>
  match pyGet v.humidity 0 with
  | .error e => .error e
  | .ok current_humidity =>
  match pyGet v.pressure 0 with
  | .error e => .error e
  | .ok current_pressure =>
  match pyGet v.timestamp 0 with
  | .error e => .error e
  | .ok t0 =>
  let last_24h := v.timestamp.filter (fun t => t0 - oneDay < t)
  match npamax (v.temperature.take last_24h.length) with
  | .error e => .error e
  | .ok max_temperature =>
  match npamin (v.temperature.take last_24h.length) with
  | .error e => .error e
  | .ok min_temperature =>
  match npamax (v.humidity.take last_24h.length) with
  | .error e => .error e
  | .ok max_humidity =>
  match npamin (v.humidity.take last_24h.length) with
  | .error e => .error e
  | .ok min_humidity =>
    .ok ⟨current_temperature, current_humidity, current_pressure, max_temperature,
      min_temperature, max_humidity, min_humidity⟩

/-- What `google_sheets_api_request` did this cycle: raised an exception or
returned the fetched table. -/
inductive FetchOutcome
  | raise (e : Exc)
  | ok (values : RawValues)
deriving DecidableEq, Repr

/-- The exception classes named in `run`'s `except` clause
(`ServerNotFoundError, HttpError, timeout, gaierror`). -/
def caught_by_sheet (e : Exc) : Bool :=
  e == .serverNotFound || e == .httpError || e == .socketTimeout || e == .gaierror

/-- One iteration of `run`'s loop body (under `sheet_lock`, up to the
`time.sleep`): try fetch, store, recompute statistics; on a caught exception
only log; either way set `sheet_ready` before sleeping. Uncaught exceptions
propagate (killing the worker before it sleeps). -/
def run_cycle (outcome : FetchOutcome) (st : SheetState) : Except Exc SheetState :=
  match outcome with
  | .raise e =>
    if caught_by_sheet e then .ok { st with ready := true } else .error e
  | .ok values =>
    match store_values values with
    | .error e => .error e
    | .ok vars =>
      match process_stadistics vars with
      | .error e => .error e
      | .ok stats => .ok { sheet_variables := vars, sheet_stadistics := stats, ready := true }

end SheetUpdater

/-! ## `gui/gui_modules/_aemet_forecast_manager.py`: the forecast presenter

The presenter (`_AemetForecastManager`) holds display-ready `today`, `days`
and `hours` structures plus cursor fields. Wall-clock time
(`datetime.datetime.now()`) is passed explicitly as a `Clock`. Raw payload
dates (`fecha`, `elaborado`) are abstracted to their parsed components; the
hourly `periodo` strings to the value `int()` parses from them. The code
stores some displayed numbers unstringified (they are stringified later by
the widget layer); the embedding renders them with `toString`, which does
not affect any claim. Where the Python methods mutate `self` before a
possible raise, the embedded functions return `Except (Exc × Mgr)` carrying
the partially mutated state. -/

namespace ForecastManager

/-- Wall-clock instant, with the fields the presenter samples from
`datetime.datetime.now()`. -/
structure Clock where
  day : Nat
  hour : Nat
deriving DecidableEq, Repr

/-- A payload date (`fecha`) after `datetime.fromisoformat`: day of month,
weekday index (0 = Monday), month number (1–12). -/
structure Fecha where
  day : Nat
  weekday : Nat
  month : Nat
deriving DecidableEq, Repr

/-- The weekday-name mapping of `_get_weekday_label` (`None` = the dict
lookup raises `KeyError`). -/
def weekday_name : Nat → Option String
  | 0 => some "lunes"
  | 1 => some "martes"
  | 2 => some "miércoles"
  | 3 => some "jueves"
  | 4 => some "viernes"
  | 5 => some "sábado"
  | 6 => some "domingo"
  | _ => none

/-- The month-name mapping of `_get_weekday_label`. -/
def month_name : Nat → Option String
  | 1 => some "enero"
  | 2 => some "febrero"
  | 3 => some "marzo"
  | 4 => some "abril"
  | 5 => some "mayo"
  | 6 => some "junio"
  | 7 => some "julio"
  | 8 => some "agosto"
  | 9 => some "septiembre"
  | 10 => some "octubre"
  | 11 => some "noviembre"
  | 12 => some "diciembre"
  | _ => none

/-- Model of `_get_weekday_label(day, mode)`. -/
def get_weekday_label (f : Fecha) (mode : String) : Except Exc String :=
  match weekday_name f.weekday with
  | none => .error .keyError
  | some weekday =>
    match month_name f.month with
    | none => .error .keyError
    | some month =>
      if mode == "today" then
        .ok (weekday ++ ", " ++ toString f.day ++ " de " ++ month)
      else if mode == "hour" then
        .ok (weekday.take 3 ++ ".")
      else
        .ok weekday

/-- Model of `_get_wind_direction_label(direction)`: a fixed dict lookup, raising
`KeyError` on any other key. -/
def get_wind_direction_label (direction : String) : Except Exc String :=
  match direction with
  | "" => .ok ""
  | "C" => .ok ""
  | "N" => .ok "↓"
  | "NE" => .ok "↙"
  | "E" => .ok "←"
  | "SE" => .ok "↖"
  | "S" => .ok "↑"
  | "SO" => .ok "↗"
  | "O" => .ok "→"
  | "NO" => .ok "↘"
  | _ => .error .keyError

/-- A `minima`/`maxima` pair in the daily payload. -/
structure MinMax where
  minima : Int
  maxima : Int
deriving DecidableEq, Repr

/-- One `estadoCielo` period entry of the daily payload. -/
structure EstadoCielo where
  value : String
  descripcion : String
deriving DecidableEq, Repr

/-- One `viento` period entry of the daily payload. -/
structure Viento where
  direccion : String
  velocidad : Int
deriving DecidableEq, Repr

/-- One `probPrecipitacion` period entry of the daily payload. -/
structure ProbPrecipitacion where
  value : Int
deriving DecidableEq, Repr

/-- One day entry (`prediccion.dia[i]`) of the daily payload. `uvMax` may be
absent (`none`: the key lookup raises `KeyError`). -/
structure DiaDaily where
  fecha : Fecha
  estadoCielo : List EstadoCielo
  temperatura : MinMax
  viento : List Viento
  probPrecipitacion : List ProbPrecipitacion
  sensTermica : MinMax
  uvMax : Option Int
  humedadRelativa : MinMax
deriving DecidableEq, Repr

/-- The daily payload: generation timestamp `elaborado` plus day entries. -/
structure DailyJson where
  elaborado : Int
  dias : List DiaDaily
deriving DecidableEq, Repr

/-- One `estadoCielo` entry of the hourly payload; `periodo` is the hour
string as the value that `int()` parses from it. -/
structure EstadoCieloH where
  value : String
  periodo : Int
deriving DecidableEq, Repr

/-- One `vientoAndRachaMax` entry of the hourly payload. -/
structure VientoRacha where
  direccion : List String
  velocidad : List String
deriving DecidableEq, Repr

/-- One day entry of the hourly payload. -/
structure DiaHourly where
  fecha : Fecha
  estadoCielo : List EstadoCieloH
  temperatura : List String
  humedadRelativa : List String
  vientoAndRachaMax : List VientoRacha
  precipitacion : List String
deriving DecidableEq, Repr

/-- The hourly payload. -/
structure HourlyJson where
  elaborado : Int
  dias : List DiaHourly
deriving DecidableEq, Repr

/-- One row of the presenter's `hours` list: the eight values that
`update_hourly_forecasts` computes for one (day, hour) pair, in source
order. The third (`hour`) is the `periodo` value the cursor logic parses
with `int()`; the widget name each value is paired with is a constant. -/
structure HourRow where
  icon : String
  weekday : String
  hour : Int
  temperature : String
  humidity : String
  direction : String
  magnitude : String
  rain : String
deriving DecidableEq, Repr

/-- The widget names `_populate_today_list` pairs the values with. -/
def today_objectNames : List String :=
  ["icon_d0", "weekday_d0", "min_temp_d0", "max_temp_d0", "direction_d0",
   "magnitude_d0", "pp_v_d0", "description_d0", "st_v_d0", "uv_v_d0", "h_v_d0"]

/-- The widget name stems `_populate_days_list` pairs the values with. -/
def days_objectNames : List String :=
  ["icon_d", "weekday_d", "min_temp_d", "max_temp_d", "direction_d",
   "magnitude_d", "pp_v_d"]

/-- Model of `_populate_today_list(values)`. -/
def populate_today_list (values : List String) : List (List (String × String)) :=
  [today_objectNames.zip values]

/-- Model of `_populate_days_list(values)`: five rows, the `i`-th zipping the
suffixed widget names with `values[i]` (all call sites pass at least five
rows; Python would raise `IndexError` otherwise). -/
def populate_days_list (values : List (List String)) : List (List (String × String)) :=
  (List.range 5).map (fun i =>
    ((days_objectNames.map (fun n => n ++ toString (i + 1))).zip (values.getD i [])))

/-- The placeholder `today` values of `_populate_today_list()`. -/
def default_today_values : List String :=
  ["11", "lunes, 01 de enero", "20°", "20°", "↙", "0 km/h", "0%", "Despejado",
   "20°/20°", "0", "0%/100%"]

/-- The placeholder `days` values of `_populate_days_list()` (a flat list:
Python then iterates each string character by character when zipping). -/
def default_days_values : List String :=
  ["11", "lunes", "20°", "20°", "↙", "0 km/h", "0%"]

/-- The placeholder hour row of `_populate_hours_list()`
(`["11", "lunes", "00", "20°", "20%", "↙", "0", ""]`). -/
def default_hour_row : HourRow :=
  ⟨"11", "lunes", 0, "20°", "20%", "↙", "0", ""⟩

/-- Model of `_get_period_index()`: the day-quarter index for the wall-clock hour. -/
def get_period_index (now : Clock) : Nat :=
  if now.hour < 6 then 3
  else if now.hour < 12 then 4
  else if now.hour < 18 then 5
  else 6

/-- The presenter state: the display structures and cursor fields of
`_AemetForecastManager`. -/
structure Mgr where
  today : List (List (String × String))
  days : List (List (String × String))
  hours : List HourRow
  hours_moving_index : Int
  current_hour_index : Nat
  current_day_index : Nat
  current_period_index : Nat
  daily_last_updated : Int
  hourly_last_updated : Int
deriving DecidableEq, Repr

/-- The `datetime(2000, 1, 1)` sentinel both `last_updated` fields start at
(instants are integers; payload timestamps are only ever compared with
`>`). -/
def epoch2000 : Int := 0

/-- Model of `__init__`: placeholder structures, cursors at zero, the period index
from the wall clock. -/
def initMgr (now : Clock) : Mgr where
  today := populate_today_list default_today_values
  days := populate_days_list
    (default_days_values.map (fun s => s.data.map (fun ch => String.mk [ch])))
  hours := List.replicate 12 default_hour_row
  hours_moving_index := 0
  current_hour_index := 0
  current_day_index := 0
  current_period_index := get_period_index now
  daily_last_updated := epoch2000
  hourly_last_updated := epoch2000

/-- Model of `_update_current_day_index(raw_forecast)`: scan for the first day entry
dated today; the unbounded `while` raises `IndexError` past the end. -/
def update_current_day_index (now : Clock) (raw : DailyJson) (st : Mgr) :
    Except Exc Mgr :=
  match raw.dias.findIdx? (fun d => d.fecha.day == now.day) with
  | none => .error .indexError
  | some index =>
    if st.current_day_index != index then
      .ok { st with current_day_index := index }
    else
      .ok st

/-- The `today_data` list `update_daily_forecasts` builds (11 display
values, in source order). -/
def build_today_data (raw : DailyJson) (dayIdx periodIdx : Nat) :
    Except Exc (List String) := do
  let dia ← pyGet raw.dias dayIdx
  let ec ← pyGet dia.estadoCielo periodIdx
  let wk ← get_weekday_label dia.fecha "today"
  let vi ← pyGet dia.viento periodIdx
  let dir ← get_wind_direction_label vi.direccion
  let pp ← pyGet dia.probPrecipitacion periodIdx
  let uv ← match dia.uvMax with
    | none => Except.error Exc.keyError
    | some u => Except.ok u
  pure [ec.value, wk,
    toString dia.temperatura.minima ++ "°",
    toString dia.temperatura.maxima ++ "°",
    dir,
    toString vi.velocidad ++ " km/h",
    toString pp.value ++ "%",
    ec.descripcion,
    toString dia.sensTermica.minima ++ "°/" ++ toString dia.sensTermica.maxima ++ "°",
    toString uv,
    toString dia.humedadRelativa.minima ++ "%/" ++
      toString dia.humedadRelativa.maxima ++ "%"]

/-- One row of the `day_data` list (7 display values for day
`dayIdx + i`). -/
def build_day_row (raw : DailyJson) (dayIdx i : Nat) : Except Exc (List String) := do
  let dia ← pyGet raw.dias (dayIdx + i)
  let ec ← pyGet dia.estadoCielo 0
  let wk ← get_weekday_label dia.fecha "day"
  let vi ← pyGet dia.viento 0
  let dir ← get_wind_direction_label vi.direccion
  let pp ← pyGet dia.probPrecipitacion 0
  pure [ec.value, wk,
    toString dia.temperatura.minima ++ "°",
    toString dia.temperatura.maxima ++ "°",
    dir,
    toString vi.velocidad,
    toString pp.value ++ "%"]

/-- The `day_data` list: rows for `i in range(1, 6)`. -/
def build_day_data (raw : DailyJson) (dayIdx : Nat) :
    Except Exc (List (List String)) := do
  let r1 ← build_day_row raw dayIdx 1
  let r2 ← build_day_row raw dayIdx 2
  let r3 ← build_day_row raw dayIdx 3
  let r4 ← build_day_row raw dayIdx 4
  let r5 ← build_day_row raw dayIdx 5
  pure [r1, r2, r3, r4, r5]

/-- Model of `update_daily_forecasts(input_json)`: recompute the period index; when
the payload is newer or the period changed, refresh the day cursor and
rebuild `today` and `days`; otherwise report no update. Mutations preceding
a raise are kept in the error value. -/
def update_daily_forecasts (now : Clock) (raw : DailyJson) (st : Mgr) :
    Except (Exc × Mgr) (Mgr × Bool) :=
  let timestamp := raw.elaborado
  let new_period_index := get_period_index now
  if timestamp > st.daily_last_updated ∨ new_period_index ≠ st.current_period_index then
    let st1 := { st with current_period_index := new_period_index }
    match update_current_day_index now raw st1 with
    | .error e => .error (e, st1)
    | .ok st2 =>
      match build_today_data raw st2.current_day_index st2.current_period_index with
      | .error e => .error (e, st2)
      | .ok today_data =>
        let st3 := { st2 with today := populate_today_list today_data }
        match build_day_data raw st3.current_day_index with
        | .error e => .error (e, st3)
        | .ok day_data =>
          let st4 := { st3 with days := populate_days_list day_data }
          .ok ({ st4 with daily_last_updated := timestamp }, true)
  else
    .ok (st, false)

/-- One hour row of `update_hourly_forecasts` (8 display values in source
order; a `'0'` precipitation renders as the empty string). -/
def build_hour_row (dia : DiaHourly) (hour : Nat) : Except Exc HourRow := do
  let ec ← pyGet dia.estadoCielo hour
  let wk ← get_weekday_label dia.fecha "hour"
  let temp ← pyGet dia.temperatura hour
  let hum ← pyGet dia.humedadRelativa hour
  let vr ← pyGet dia.vientoAndRachaMax (2 * hour)
  let dir0 ← pyGet vr.direccion 0
  let dirLabel ← get_wind_direction_label dir0
  let vel0 ← pyGet vr.velocidad 0
  let rain ← pyGet dia.precipitacion hour
  pure ⟨ec.value, wk, ec.periodo, temp ++ "°", hum ++ "%", dirLabel, vel0,
    if rain == "0" then "" else rain⟩

/-- The rows one payload day contributes
(`for hour in range(0, len(dia['estadoCielo']))`). -/
def build_day_hours (dia : DiaHourly) : Except Exc (List HourRow) :=
  (List.range dia.estadoCielo.length).mapM (fun hour => build_hour_row dia hour)

/-- The flattened `hour_data` list over all payload days. -/
def build_hour_data (raw : HourlyJson) : Except Exc (List HourRow) :=
  match raw.dias.mapM (fun dia => build_day_hours dia) with
  | .error e => .error e
  | .ok dayRows => .ok dayRows.flatten

/-- Model of `_update_current_hour_index()`: scan `hours` for the row whose hour
equals the wall-clock hour; the unbounded `while` raises `IndexError` when
there is none. Reports whether the index changed. -/
def update_current_hour_index (now : Clock) (st : Mgr) : Except Exc (Mgr × Bool) :=
  match st.hours.findIdx? (fun r => r.hour == (now.hour : Int)) with
  | none => .error .indexError
  | some index =>
    if st.current_hour_index == index then
      .ok (st, false)
    else
      .ok ({ st with current_hour_index := index }, true)

/-- Model of `reset_hour_index()`: refresh the current-hour index, then move the
cursor there, reporting whether it moved. -/
def reset_hour_index (now : Clock) (st : Mgr) : Except (Exc × Mgr) (Mgr × Bool) :=
  match update_current_hour_index now st with
  | .error e => .error (e, st)
  | .ok (st1, _) =>
    if st1.hours_moving_index ≠ (st1.current_hour_index : Int) then
      .ok ({ st1 with hours_moving_index := (st1.current_hour_index : Int) }, true)
    else
      .ok (st1, false)

/-- Model of `move_hour_index(delta)`: move the cursor iff the result stays at or
after the current hour and keeps a full 12-row window in bounds. -/
def move_hour_index (delta : Int) (st : Mgr) : Mgr × Bool :=
  if (st.current_hour_index : Int) ≤ st.hours_moving_index + delta ∧
      st.hours_moving_index + delta < (st.hours.length : Int) - 12 then
    ({ st with hours_moving_index := st.hours_moving_index + delta }, true)
  else
    (st, false)

/-- Model of `update_hourly_forecasts(input_json)`: on a newer payload rebuild the
whole `hours` list and reset the cursor; on a stale payload reset the
cursor only when the wall clock moved to a new hour row; otherwise report
no update. -/
def update_hourly_forecasts (now : Clock) (raw : HourlyJson) (st : Mgr) :
    Except (Exc × Mgr) (Mgr × Bool) :=
  if raw.elaborado > st.hourly_last_updated then
    match build_hour_data raw with
    | .error e => .error (e, st)
    | .ok rows =>
      let st1 := { st with hours := rows }
      match reset_hour_index now st1 with
      | .error ep => .error ep
      | .ok (st2, _) => .ok ({ st2 with hourly_last_updated := raw.elaborado }, true)
  else
    match update_current_hour_index now st with
    | .error e => .error (e, st)
    | .ok (st1, true) =>
      match reset_hour_index now st1 with
      | .error ep => .error ep
      | .ok (st2, _) => .ok (st2, true)
    | .ok (st1, false) => .ok (st1, false)

/-- One externally callable presenter operation together with its inputs
(payload and wall-clock time). -/
inductive Step
  | daily (now : Clock) (raw : DailyJson)
  | hourly (now : Clock) (raw : HourlyJson)
  | reset (now : Clock)
  | move (delta : Int)

/-- Apply one presenter operation. -/
def applyStep : Step → Mgr → Except (Exc × Mgr) (Mgr × Bool)
  | .daily now raw, st => update_daily_forecasts now raw st
  | .hourly now raw, st => update_hourly_forecasts now raw st
  | .reset now, st => reset_hour_index now st
  | .move delta, st => .ok (move_hour_index delta st)

/-- The claimed window invariant: the 12-row window starting at
`hours_moving_index` lies within the `hours` list. -/
def windowInv (st : Mgr) : Prop :=
  0 ≤ st.hours_moving_index ∧
  st.hours_moving_index + 12 ≤ (st.hours.length : Int)

instance (st : Mgr) : Decidable (windowInv st) := by
  unfold windowInv; infer_instance

/-- Side condition on a cursor reset: if the wall-clock hour occurs in the
given rows, its first occurrence leaves at least 12 rows to the end. -/
def hourOK (rows : List HourRow) (h : Nat) : Bool :=
  match rows.findIdx? (fun r => r.hour == (h : Int)) with
  | none => true
  | some i => (i : Int) + 12 ≤ (rows.length : Int)

/-- The steps whose cursor resets respect `hourOK` for the hours list they
actually scan (the proviso of the amended window-invariant claim): a direct
reset scans the stored rows; a fresh hourly ingest (newer `elaborado`)
resets on the freshly built rows only; a stale hourly ingest resets on the
stored rows only. -/
def goodStep : Step → Mgr → Prop
  | .daily _ _, _ => True
  | .move _, _ => True
  | .reset now, st => hourOK st.hours now.hour = true
  | .hourly now raw, st =>
      (raw.elaborado > st.hourly_last_updated →
        ∀ rows, build_hour_data raw = .ok rows → hourOK rows now.hour = true) ∧
      (¬ raw.elaborado > st.hourly_last_updated → hourOK st.hours now.hour = true)

/-- States reachable from `st` by presenter operations that return without
raising and whose cursor resets respect `hourOK`. -/
inductive ReachesGood : Mgr → Mgr → Prop
  | refl (st : Mgr) : ReachesGood st st
  | step {st st1 st2 : Mgr} {b : Bool} (s : Step) :
      ReachesGood st st1 → goodStep s st1 → applyStep s st1 = .ok (st2, b) →
      ReachesGood st st2

/-- An hourly payload with a stale generation timestamp and no day entries
(used to exhibit the presenter's unguarded hour scan). -/
def cex_stale_hourly : HourlyJson := ⟨0, []⟩

/-- An hourly payload whose 14 rows put wall-clock hour 0 at index 0 (a
well-behaved ingest: the reset finds the hour with 14 rows remaining). -/
def wit_hourly : HourlyJson :=
  ⟨1, [⟨⟨1, 0, 1⟩,
    ((List.range 14).map (fun p => ⟨"11", (p : Int)⟩)),
    List.replicate 14 "20",
    List.replicate 14 "50",
    List.replicate 27 ⟨["N"], ["10"]⟩,
    List.replicate 14 "0"⟩]⟩

/-- An hourly payload whose only match for wall-clock hour 5 sits on the
second-to-last of 14 rows (used to exhibit a reachable state violating the
12-row window invariant). -/
def cex_tail_hourly : HourlyJson :=
  ⟨1, [⟨⟨1, 0, 1⟩,
    (([0, 1, 2, 3, 4, 6, 7, 8, 9, 10, 11, 12, 13, 5] : List Int).map
      (fun p => ⟨"11", p⟩)),
    List.replicate 14 "20",
    List.replicate 14 "50",
    List.replicate 27 ⟨["N"], ["10"]⟩,
    List.replicate 14 "0"⟩]⟩

end ForecastManager

/-! ## Shared list lemmas for the time-series workers

`numpy`'s boolean-mask count followed by a prefix slice
(`data[0:len(dates[dates > cutoff])]`) selects exactly the entries newer
than the cutoff when the timestamps are sorted newest-first. -/

theorem take_filter_len_eq_filter {α : Type} (key : α → Int) (c : Int) :
    ∀ l : List α, l.Pairwise (fun a b => key b ≤ key a) →
    l.take (((l.map key).filter (fun t => c < t)).length) =
      l.filter (fun e => c < key e) := by
  intro l
  induction l with
  | nil => intro _; rfl
  | cons x xs ih =>
    intro hpw
    rcases List.pairwise_cons.mp hpw with ⟨hx, hxs⟩
    by_cases hc : c < key x
    · simp [List.filter_cons, hc, ih hxs]
    · have h1 : (xs.map key).filter (fun t => decide (c < t)) = [] := by
        refine List.filter_eq_nil_iff.mpr ?_
        intro t ht
        rcases List.mem_map.mp ht with ⟨y, hy, rfl⟩
        simpa using fun hlt => hc (lt_of_lt_of_le hlt (hx y hy))
      have h2 : xs.filter (fun e => decide (c < key e)) = [] := by
        refine List.filter_eq_nil_iff.mpr ?_
        intro y hy
        simpa using fun hlt => hc (lt_of_lt_of_le hlt (hx y hy))
      simp [List.filter_cons, hc, h1, h2]

theorem take_filter_len_eq_zip_filter {β : Type} (c : Int) :
    ∀ (ts : List Int) (vals : List β), ts.length = vals.length →
    ts.Pairwise (fun a b => b ≤ a) →
    vals.take ((ts.filter (fun t => c < t)).length) =
      ((ts.zip vals).filter (fun p => c < p.1)).map Prod.snd := by
  intro ts
  induction ts with
  | nil =>
    intro vals hlen _
    have : vals = [] := List.length_eq_zero.mp hlen.symm
    subst this
    rfl
  | cons t ts' ih =>
    intro vals hlen hpw
    cases vals with
    | nil => simp at hlen
    | cons v vs =>
      rcases List.pairwise_cons.mp hpw with ⟨ht, hts⟩
      have hlen' : ts'.length = vs.length := by simpa using hlen
      by_cases hc : c < t
      · simp [List.filter_cons, hc, ih vs hlen' hts]
      · have h1 : ts'.filter (fun t => decide (c < t)) = [] := by
          refine List.filter_eq_nil_iff.mpr ?_
          intro x hx
          simpa using fun hlt => hc (lt_of_lt_of_le hlt (ht x hx))
        have h2 : (ts'.zip vs).filter (fun p => decide (c < p.1)) = [] := by
          refine List.filter_eq_nil_iff.mpr ?_
          intro p hp
          simpa using fun hlt => hc (lt_of_lt_of_le hlt (ht p.1 (List.of_mem_zip hp).1))
        simp [List.filter_cons, hc, h1, h2]

theorem foldl_max_mem {γ : Type} [LinearOrder γ] :
    ∀ (xs : List γ) (x : γ), xs.foldl max x ∈ x :: xs := by
  intro xs
  induction xs with
  | nil => intro x; simp
  | cons y ys ih =>
    intro x
    simp only [List.foldl_cons]
    rcases List.mem_cons.mp (ih (max x y)) with h1 | h1
    · rw [h1]
      rcases max_choice x y with hm | hm <;> rw [hm] <;> simp
    · exact List.mem_cons_of_mem _ (List.mem_cons_of_mem _ h1)

theorem foldl_max_ge {γ : Type} [LinearOrder γ] :
    ∀ (xs : List γ) (x : γ), x ≤ xs.foldl max x ∧ ∀ y ∈ xs, y ≤ xs.foldl max x := by
  intro xs
  induction xs with
  | nil => intro x; exact ⟨le_refl x, by simp⟩
  | cons z zs ih =>
    intro x
    rcases ih (max x z) with ⟨h1, h2⟩
    simp only [List.foldl_cons]
    refine ⟨le_trans (le_max_left x z) h1, ?_⟩
    intro y hy
    rcases List.mem_cons.mp hy with rfl | hy'
    · exact le_trans (le_max_right x y) h1
    · exact h2 y hy'

theorem foldl_min_mem {γ : Type} [LinearOrder γ] :
    ∀ (xs : List γ) (x : γ), xs.foldl min x ∈ x :: xs := by
  intro xs
  induction xs with
  | nil => intro x; simp
  | cons y ys ih =>
    intro x
    simp only [List.foldl_cons]
    rcases List.mem_cons.mp (ih (min x y)) with h1 | h1
    · rw [h1]
      rcases min_choice x y with hm | hm <;> rw [hm] <;> simp
    · exact List.mem_cons_of_mem _ (List.mem_cons_of_mem _ h1)

theorem foldl_min_le {γ : Type} [LinearOrder γ] :
    ∀ (xs : List γ) (x : γ), xs.foldl min x ≤ x ∧ ∀ y ∈ xs, xs.foldl min x ≤ y := by
  intro xs
  induction xs with
  | nil => intro x; exact ⟨le_refl x, by simp⟩
  | cons z zs ih =>
    intro x
    rcases ih (min x z) with ⟨h1, h2⟩
    simp only [List.foldl_cons]
    refine ⟨le_trans h1 (min_le_left x z), ?_⟩
    intro y hy
    rcases List.mem_cons.mp hy with rfl | hy'
    · exact le_trans h1 (min_le_right x y)
    · exact h2 y hy'

/-- The 24-hour prefix slice of a parallel value column: `np.amax`/`np.amin`
succeed and yield the maximum and minimum of exactly the values whose
timestamp is strictly newer than `newest − 24h`. -/
theorem npamax_take_spec (t0 : Int) (ts' : List Int) (v0 : ℚ) (vs : List ℚ)
    (hpw : (t0 :: ts').Pairwise (fun a b : Int => b ≤ a))
    (hlen : (t0 :: ts').length = (v0 :: vs).length) :
    ∃ m mi,
      npamax ((v0 :: vs).take
        (((t0 :: ts').filter (fun t => t0 - oneDay < t)).length)) = .ok m ∧
      npamin ((v0 :: vs).take
        (((t0 :: ts').filter (fun t => t0 - oneDay < t)).length)) = .ok mi ∧
      isMaxOf m (values_within_24h (t0 :: ts') (v0 :: vs) t0) ∧
      isMinOf mi (values_within_24h (t0 :: ts') (v0 :: vs) t0) ∧
      mi ≤ m := by
  have hc : t0 - oneDay < t0 := by unfold oneDay; omega
  have htake := take_filter_len_eq_zip_filter (t0 - oneDay) (t0 :: ts') (v0 :: vs) hlen hpw
  have hcons : values_within_24h (t0 :: ts') (v0 :: vs) t0 =
      v0 :: ((ts'.zip vs).filter (fun p => decide (t0 - oneDay < p.1))).map Prod.snd := by
    simp [values_within_24h, List.filter_cons, hc]
  set rest := ((ts'.zip vs).filter (fun p => decide (t0 - oneDay < p.1))).map Prod.snd with hrest
  have htake' : (v0 :: vs).take
      (((t0 :: ts').filter (fun t => t0 - oneDay < t)).length) = v0 :: rest := by
    rw [htake]
    simp [values_within_24h, List.filter_cons, hc, hrest]
  refine ⟨rest.foldl max v0, rest.foldl min v0, ?_, ?_, ?_, ?_, ?_⟩
  · rw [htake']; rfl
  · rw [htake']; rfl
  · rw [hcons]
    refine ⟨foldl_max_mem rest v0, ?_⟩
    intro x hx
    rcases List.mem_cons.mp hx with rfl | hx'
    · exact (foldl_max_ge rest x).1
    · exact (foldl_max_ge rest v0).2 x hx'
  · rw [hcons]
    refine ⟨foldl_min_mem rest v0, ?_⟩
    intro x hx
    rcases List.mem_cons.mp hx with rfl | hx'
    · exact (foldl_min_le rest x).1
    · exact (foldl_min_le rest v0).2 x hx'
  · rcases List.mem_cons.mp (foldl_min_mem rest v0) with h1 | h1
    · rw [h1]
      exact (foldl_max_ge rest v0).1
    · exact (foldl_max_ge rest v0).2 _ h1

namespace SensorUpdater

/-- Behaviour of `_combine_and_filter_data` on a decreasing history: the
result is exactly the new reading followed by the still-recent prior
entries. -/
theorem combine_spec (current : Entry) (previous : List Entry)
    (hpw : previous.Pairwise (fun a b => b.ts < a.ts))
    (hhead : ∀ p, previous.head? = some p → p.ts ≤ current.ts) :
    (∀ e ∈ combine_and_filter_data current previous, current.ts - sevenDays < e.ts) ∧
    (∀ e ∈ previous, current.ts - sevenDays < e.ts →
      e ∈ combine_and_filter_data current previous) ∧
    (combine_and_filter_data current previous).head? = some current := by
  have hpw' : (current :: previous).Pairwise (fun a b : Entry => b.ts ≤ a.ts) := by
    refine List.pairwise_cons.mpr ⟨?_, hpw.imp (fun h => le_of_lt h)⟩
    intro y hy
    cases previous with
    | nil => cases hy
    | cons p rest =>
      rcases List.mem_cons.mp hy with rfl | hy'
      · exact hhead y rfl
      · exact le_trans (le_of_lt (List.rel_of_pairwise_cons hpw hy')) (hhead p rfl)
  have heq : combine_and_filter_data current previous =
      (current :: previous).filter (fun e => decide (current.ts - sevenDays < e.ts)) := by
    unfold combine_and_filter_data
    exact take_filter_len_eq_filter (fun e => e.ts) (current.ts - sevenDays)
      (current :: previous) hpw'
  refine ⟨?_, ?_, ?_⟩
  · intro e he
    rw [heq] at he
    simpa using List.of_mem_filter he
  · intro e he hlt
    rw [heq]
    exact List.mem_filter.mpr ⟨List.mem_cons_of_mem _ he, by simpa using hlt⟩
  · rw [heq]
    have hc : current.ts - sevenDays < current.ts := by unfold sevenDays; omega
    simp [List.filter_cons, hc]

/-- Behaviour of the sensor `_process_stadistics` on a non-empty series
sorted newest-first: it returns, with the currents equal to the newest
values and the 24-hour extrema ranging over exactly the entries newer than
`newest − 24h`. -/
theorem sensor_stats_spec (v : SensorVars)
    (hpw : v.timestamp.Pairwise (fun a b => b < a))
    (hne : v.timestamp ≠ [])
    (hlt : v.timestamp.length = v.temperature.length)
    (hlh : v.timestamp.length = v.humidity.length) :
    ∃ (s : SensorStats) (t0 : Int),
      process_stadistics v = .ok s ∧
      v.timestamp.head? = some t0 ∧
      v.temperature.head? = some s.current_temperature ∧
      v.humidity.head? = some s.current_humidity ∧
      isMaxOf s.max_temperature (values_within_24h v.timestamp v.temperature t0) ∧
      isMinOf s.min_temperature (values_within_24h v.timestamp v.temperature t0) ∧
      isMaxOf s.max_humidity (values_within_24h v.timestamp v.humidity t0) ∧
      isMinOf s.min_humidity (values_within_24h v.timestamp v.humidity t0) ∧
      s.min_temperature ≤ s.max_temperature ∧
      s.min_humidity ≤ s.max_humidity := by
  obtain ⟨ts, temps, hums⟩ := v
  simp only at hpw hne hlt hlh ⊢
  cases ts with
  | nil => exact absurd rfl hne
  | cons t0 ts' =>
  cases temps with
  | nil => simp at hlt
  | cons vt vts =>
  cases hums with
  | nil => simp at hlh
  | cons vh vhs =>
  have hpw' : (t0 :: ts').Pairwise (fun a b : Int => b ≤ a) :=
    hpw.imp (fun h => le_of_lt h)
  obtain ⟨mT, miT, hmaxT, hminT, hMT, hmT, hTord⟩ := npamax_take_spec t0 ts' vt vts hpw' hlt
  obtain ⟨mH, miH, hmaxH, hminH, hMH, hmH, hHord⟩ := npamax_take_spec t0 ts' vh vhs hpw' hlh
  refine ⟨⟨vt, vh, mT, miT, mH, miH⟩, t0, ?_, rfl, rfl, rfl, hMT, hmT, hMH, hmH, hTord, hHord⟩
  simp [process_stadistics, pyGet, hmaxT, hminT, hmaxH, hminH]

end SensorUpdater

namespace SheetUpdater

/-- Behaviour of the sheet `_process_stadistics`, exactly as the sensor
one's, plus the current pressure. -/
theorem sheet_stats_spec (v : SheetVars)
    (hpw : v.timestamp.Pairwise (fun a b => b < a))
    (hne : v.timestamp ≠ [])
    (hlt : v.timestamp.length = v.temperature.length)
    (hlh : v.timestamp.length = v.humidity.length)
    (hlp : v.timestamp.length = v.pressure.length) :
    ∃ (s : SheetStats) (t0 : Int),
      process_stadistics v = .ok s ∧
      v.timestamp.head? = some t0 ∧
      v.temperature.head? = some s.current_temperature ∧
      v.humidity.head? = some s.current_humidity ∧
      v.pressure.head? = some s.current_pressure ∧
      isMaxOf s.max_temperature (values_within_24h v.timestamp v.temperature t0) ∧
      isMinOf s.min_temperature (values_within_24h v.timestamp v.temperature t0) ∧
      isMaxOf s.max_humidity (values_within_24h v.timestamp v.humidity t0) ∧
      isMinOf s.min_humidity (values_within_24h v.timestamp v.humidity t0) ∧
      s.min_temperature ≤ s.max_temperature ∧
      s.min_humidity ≤ s.max_humidity := by
  obtain ⟨ts, temps, hums, press⟩ := v
  simp only at hpw hne hlt hlh hlp ⊢
  cases ts with
  | nil => exact absurd rfl hne
  | cons t0 ts' =>
  cases temps with
  | nil => simp at hlt
  | cons vt vts =>
  cases hums with
  | nil => simp at hlh
  | cons vh vhs =>
  cases press with
  | nil => simp at hlp
  | cons vp vps =>
  have hpw' : (t0 :: ts').Pairwise (fun a b : Int => b ≤ a) :=
    hpw.imp (fun h => le_of_lt h)
  obtain ⟨mT, miT, hmaxT, hminT, hMT, hmT, hTord⟩ := npamax_take_spec t0 ts' vt vts hpw' hlt
  obtain ⟨mH, miH, hmaxH, hminH, hMH, hmH, hHord⟩ := npamax_take_spec t0 ts' vh vhs hpw' hlh
  refine ⟨⟨vt, vh, vp, mT, miT, mH, miH⟩, t0, ?_, rfl, rfl, rfl, rfl,
    hMT, hmT, hMH, hmH, hTord, hHord⟩
  simp [process_stadistics, pyGet, hmaxT, hminT, hmaxH, hminH]

/-- Every completed cycle of `run` ends with `sheet_ready` set. -/
theorem run_cycle_ready (outcome : FetchOutcome) (st st' : SheetState)
    (h : run_cycle outcome st = .ok st') : st'.ready = true := by
  cases outcome with
  | raise e =>
    by_cases hc : caught_by_sheet e = true
    · simp only [run_cycle, hc, if_true, Except.ok.injEq] at h
      subst h
      rfl
    · simp [run_cycle, hc] at h
  | ok values =>
    rw [run_cycle] at h
    cases hs : store_values values with
    | error e => rw [hs] at h; exact absurd h (by simp)
    | ok vars =>
      rw [hs] at h
      dsimp only at h
      cases hp : process_stadistics vars with
      | error e => rw [hp] at h; exact absurd h (by simp)
      | ok stats =>
        rw [hp] at h
        simp only [Except.ok.injEq] at h
        subst h
        rfl

/-- A cycle whose fetch raised a caught exception completes with the payload
and statistics untouched and only the ready event set. -/
theorem run_cycle_caught (e : Exc) (st : SheetState) (hc : caught_by_sheet e = true) :
    run_cycle (.raise e) st = .ok { st with ready := true } := by
  simp [run_cycle, hc]

end SheetUpdater

namespace ForecastManager

/-- What a returning `_update_current_hour_index` call did: found the first
matching row index, stored it, and touched nothing else. -/
theorem update_current_hour_index_ok_spec {now : Clock} {st st1 : Mgr} {b : Bool}
    (h : update_current_hour_index now st = .ok (st1, b)) :
    ∃ i, st.hours.findIdx? (fun r => r.hour == (now.hour : Int)) = some i ∧
      st1.current_hour_index = i ∧
      st1.hours = st.hours ∧
      st1.hours_moving_index = st.hours_moving_index ∧
      st1.today = st.today ∧ st1.days = st.days ∧
      st1.current_day_index = st.current_day_index ∧
      st1.current_period_index = st.current_period_index ∧
      st1.daily_last_updated = st.daily_last_updated ∧
      st1.hourly_last_updated = st.hourly_last_updated := by
  unfold update_current_hour_index at h
  cases hf : st.hours.findIdx? (fun r => r.hour == (now.hour : Int)) with
  | none => rw [hf] at h; exact absurd h (by simp)
  | some i =>
    rw [hf] at h
    dsimp only at h
    by_cases hc : (st.current_hour_index == i) = true
    · rw [if_pos hc] at h
      simp only [Except.ok.injEq, Prod.mk.injEq] at h
      obtain ⟨h1, _⟩ := h
      subst h1
      exact ⟨i, rfl, beq_iff_eq.mp hc, rfl, rfl, rfl, rfl, rfl, rfl, rfl, rfl⟩
    · rw [if_neg hc] at h
      simp only [Except.ok.injEq, Prod.mk.injEq] at h
      obtain ⟨h1, _⟩ := h
      subst h1
      exact ⟨i, rfl, rfl, rfl, rfl, rfl, rfl, rfl, rfl, rfl, rfl⟩

/-- What a returning `reset_hour_index` call did: both the current-hour
index and the moving cursor end at the first matching row index, and
nothing else changed. -/
theorem reset_hour_index_ok_spec {now : Clock} {st st1 : Mgr} {b : Bool}
    (h : reset_hour_index now st = .ok (st1, b)) :
    ∃ i, st.hours.findIdx? (fun r => r.hour == (now.hour : Int)) = some i ∧
      st1.current_hour_index = i ∧
      st1.hours_moving_index = (i : Int) ∧
      st1.hours = st.hours ∧
      st1.today = st.today ∧ st1.days = st.days ∧
      st1.current_day_index = st.current_day_index ∧
      st1.current_period_index = st.current_period_index ∧
      st1.daily_last_updated = st.daily_last_updated ∧
      st1.hourly_last_updated = st.hourly_last_updated := by
  unfold reset_hour_index at h
  cases hu : update_current_hour_index now st with
  | error e => rw [hu] at h; exact absurd h (by simp)
  | ok p =>
    obtain ⟨stA, bA⟩ := p
    rw [hu] at h
    dsimp only at h
    obtain ⟨i, hf, hcur, hhours, hmov, htoday, hdays, hday, hperiod, hdl, hhl⟩ :=
      update_current_hour_index_ok_spec hu
    by_cases hne : stA.hours_moving_index ≠ (stA.current_hour_index : Int)
    · rw [if_pos hne] at h
      simp only [Except.ok.injEq, Prod.mk.injEq] at h
      obtain ⟨h1, _⟩ := h
      subst h1
      exact ⟨i, hf, by simpa using hcur, by simp [hcur], by simpa using hhours,
        by simpa using htoday, by simpa using hdays, by simpa using hday,
        by simpa using hperiod, by simpa using hdl, by simpa using hhl⟩
    · rw [if_neg hne] at h
      simp only [Except.ok.injEq, Prod.mk.injEq] at h
      obtain ⟨h1, _⟩ := h
      subst h1
      push_neg at hne
      exact ⟨i, hf, hcur, by rw [hne, hcur], hhours, htoday, hdays, hday, hperiod, hdl, hhl⟩

/-- What a returning `_update_current_day_index` call did: only the
current-day index may have changed. -/
theorem update_current_day_index_ok_spec {now : Clock} {raw : DailyJson} {st st1 : Mgr}
    (h : update_current_day_index now raw st = .ok st1) :
    st1.hours = st.hours ∧
    st1.hours_moving_index = st.hours_moving_index ∧
    st1.current_hour_index = st.current_hour_index ∧
    st1.current_period_index = st.current_period_index ∧
    st1.daily_last_updated = st.daily_last_updated ∧
    st1.hourly_last_updated = st.hourly_last_updated := by
  unfold update_current_day_index at h
  cases hf : raw.dias.findIdx? (fun d => d.fecha.day == now.day) with
  | none => rw [hf] at h; exact absurd h (by simp)
  | some index =>
    rw [hf] at h
    dsimp only at h
    by_cases hc : (st.current_day_index != index) = true
    · rw [if_pos hc] at h
      simp only [Except.ok.injEq] at h
      subst h
      exact ⟨rfl, rfl, rfl, rfl, rfl, rfl⟩
    · rw [if_neg hc] at h
      simp only [Except.ok.injEq] at h
      subst h
      exact ⟨rfl, rfl, rfl, rfl, rfl, rfl⟩

/-- What a returning `update_daily_forecasts` call did: the hourly state and
cursor are untouched; a rebuild records the new period index and the
payload's timestamp; a no-op leaves the state identical and implies the
payload was stale and the period unchanged. -/
theorem update_daily_forecasts_ok_spec {now : Clock} {raw : DailyJson} {st st1 : Mgr}
    {b : Bool} (h : update_daily_forecasts now raw st = .ok (st1, b)) :
    st1.hours = st.hours ∧
    st1.hours_moving_index = st.hours_moving_index ∧
    st1.current_hour_index = st.current_hour_index ∧
    st1.hourly_last_updated = st.hourly_last_updated ∧
    (b = true → st1.current_period_index = get_period_index now ∧
      st1.daily_last_updated = raw.elaborado) ∧
    (b = false → st1 = st ∧ ¬ raw.elaborado > st.daily_last_updated ∧
      get_period_index now = st.current_period_index) := by
  unfold update_daily_forecasts at h
  by_cases hcond : raw.elaborado > st.daily_last_updated ∨
      get_period_index now ≠ st.current_period_index
  · rw [if_pos hcond] at h
    dsimp only at h
    cases hu : update_current_day_index now raw
        { st with current_period_index := get_period_index now } with
    | error e => rw [hu] at h; exact absurd h (by simp)
    | ok st2 =>
      rw [hu] at h
      dsimp only at h
      obtain ⟨h2hours, h2mov, h2cur, h2period, h2dl, h2hl⟩ :=
        update_current_day_index_ok_spec hu
      cases ht : build_today_data raw st2.current_day_index st2.current_period_index with
      | error e => rw [ht] at h; exact absurd h (by simp)
      | ok today_data =>
        rw [ht] at h
        dsimp only at h
        cases hd : build_day_data raw st2.current_day_index with
        | error e => rw [hd] at h; exact absurd h (by simp)
        | ok day_data =>
          rw [hd] at h
          dsimp only at h
          simp only [Except.ok.injEq, Prod.mk.injEq] at h
          obtain ⟨h1, hb⟩ := h
          subst h1
          refine ⟨by simpa using h2hours, by simpa using h2mov, by simpa using h2cur,
            by simpa using h2hl, ?_, ?_⟩
          · intro _
            exact ⟨by simpa using h2period, rfl⟩
          · intro hfalse
            exact absurd hb.symm (by simp [hfalse])
  · rw [if_neg hcond] at h
    simp only [Except.ok.injEq, Prod.mk.injEq] at h
    obtain ⟨h1, hb⟩ := h
    subst h1
    push_neg at hcond
    refine ⟨rfl, rfl, rfl, rfl, ?_, ?_⟩
    · intro htrue
      exact absurd hb.symm (by simp [htrue])
    · intro _
      exact ⟨rfl, not_lt.mpr hcond.1, hcond.2⟩

/-- The initial presenter state satisfies the 12-row window invariant
(12 placeholder rows, cursor at 0). -/
theorem windowInv_initMgr (now : Clock) : windowInv (initMgr now) := by
  constructor
  · exact le_refl 0
  · simp [initMgr]

/-- Every presenter operation that returns without raising, and whose
cursor reset (if any) respects `hourOK`, preserves the window invariant. -/
theorem applyStep_preserves_windowInv {s : Step} {st st1 : Mgr} {b : Bool}
    (hinv : windowInv st) (hgood : goodStep s st) (h : applyStep s st = .ok (st1, b)) :
    windowInv st1 := by
  unfold windowInv at hinv ⊢
  cases s with
  | daily now raw =>
    simp only [applyStep] at h
    obtain ⟨hh, hm, _, _, _, _⟩ := update_daily_forecasts_ok_spec h
    exact ⟨by rw [hm]; exact hinv.1, by rw [hm, hh]; exact hinv.2⟩
  | move delta =>
    simp only [applyStep] at h
    unfold move_hour_index at h
    by_cases hc : (st.current_hour_index : Int) ≤ st.hours_moving_index + delta ∧
        st.hours_moving_index + delta < (st.hours.length : Int) - 12
    · rw [if_pos hc] at h
      simp only [Except.ok.injEq, Prod.mk.injEq] at h
      obtain ⟨h1, _⟩ := h
      subst h1
      have h0 : (0 : Int) ≤ (st.current_hour_index : Int) := Int.natCast_nonneg _
      refine ⟨le_trans h0 hc.1, ?_⟩
      have := hc.2
      show st.hours_moving_index + delta + 12 ≤ (st.hours.length : Int)
      omega
    · rw [if_neg hc] at h
      simp only [Except.ok.injEq, Prod.mk.injEq] at h
      obtain ⟨h1, _⟩ := h
      subst h1
      exact hinv
  | reset now =>
    simp only [applyStep] at h
    obtain ⟨i, hf, hcur, hmov, hhours, _⟩ := reset_hour_index_ok_spec h
    have hg : hourOK st.hours now.hour = true := hgood
    unfold hourOK at hg
    rw [hf] at hg
    have hbound : (i : Int) + 12 ≤ (st.hours.length : Int) := by simpa using hg
    exact ⟨by rw [hmov]; exact Int.natCast_nonneg i, by rw [hmov, hhours]; exact hbound⟩
  | hourly now raw =>
    simp only [applyStep] at h
    unfold update_hourly_forecasts at h
    by_cases hnew : raw.elaborado > st.hourly_last_updated
    · rw [if_pos hnew] at h
      cases hb : build_hour_data raw with
      | error e => rw [hb] at h; exact absurd h (by simp)
      | ok rows =>
        rw [hb] at h
        dsimp only at h
        cases hr : reset_hour_index now { st with hours := rows } with
        | error ep => rw [hr] at h; exact absurd h (by simp)
        | ok p =>
          obtain ⟨st2, b2⟩ := p
          rw [hr] at h
          dsimp only at h
          simp only [Except.ok.injEq, Prod.mk.injEq] at h
          obtain ⟨h1, _⟩ := h
          subst h1
          obtain ⟨i, hf, hcur, hmov, hhours, _⟩ := reset_hour_index_ok_spec hr
          have hf' : rows.findIdx? (fun r => r.hour == (now.hour : Int)) = some i := hf
          have hg := hgood.1 hnew rows hb
          unfold hourOK at hg
          rw [hf'] at hg
          have hbound : (i : Int) + 12 ≤ (rows.length : Int) := by simpa using hg
          have hhours' : st2.hours = rows := hhours
          refine ⟨?_, ?_⟩
          · show (0 : Int) ≤ st2.hours_moving_index
            rw [hmov]
            exact Int.natCast_nonneg i
          · show st2.hours_moving_index + 12 ≤ (st2.hours.length : Int)
            rw [hmov, hhours']
            exact hbound
    · rw [if_neg hnew] at h
      cases hu : update_current_hour_index now st with
      | error e => rw [hu] at h; exact absurd h (by simp)
      | ok p =>
        obtain ⟨stA, bA⟩ := p
        rw [hu] at h
        obtain ⟨iA, hfA, hcurA, hhoursA, hmovA, _⟩ := update_current_hour_index_ok_spec hu
        cases bA with
        | false =>
          dsimp only at h
          simp only [Except.ok.injEq, Prod.mk.injEq] at h
          obtain ⟨h1, _⟩ := h
          subst h1
          exact ⟨by rw [hmovA]; exact hinv.1, by rw [hmovA, hhoursA]; exact hinv.2⟩
        | true =>
          dsimp only at h
          cases hr : reset_hour_index now stA with
          | error ep => rw [hr] at h; exact absurd h (by simp)
          | ok p2 =>
            obtain ⟨st2, b2⟩ := p2
            rw [hr] at h
            dsimp only at h
            simp only [Except.ok.injEq, Prod.mk.injEq] at h
            obtain ⟨h1, _⟩ := h
            subst h1
            obtain ⟨i, hf, hcur, hmov, hhours, _⟩ := reset_hour_index_ok_spec hr
            have hf' : st.hours.findIdx? (fun r => r.hour == (now.hour : Int)) = some i := by
              rw [← hhoursA]
              exact hf
            have hg : hourOK st.hours now.hour = true := hgood.2 hnew
            unfold hourOK at hg
            rw [hf'] at hg
            have hbound : (i : Int) + 12 ≤ (st.hours.length : Int) := by simpa using hg
            exact ⟨by rw [hmov]; exact Int.natCast_nonneg i,
              by rw [hmov, hhours, hhoursA]; exact hbound⟩

/-- Lemma: `_update_current_day_index` returns without raising exactly when the
payload contains a day entry dated today. -/
theorem update_current_day_index_isOk_iff (now : Clock) (raw : DailyJson) (st : Mgr) :
    (∃ st', update_current_day_index now raw st = .ok st') ↔
      ∃ d ∈ raw.dias, d.fecha.day = now.day := by
  unfold update_current_day_index
  cases hf : raw.dias.findIdx? (fun d => d.fecha.day == now.day) with
  | none =>
    constructor
    · rintro ⟨st', hst'⟩
      exact absurd hst' (by simp)
    · rintro ⟨d, hd, hday⟩
      rw [List.findIdx?_eq_none_iff] at hf
      have := hf d hd
      simp [hday] at this
  | some i =>
    dsimp only
    constructor
    · intro _
      have hsome : (raw.dias.findIdx? (fun d => d.fecha.day == now.day)).isSome := by
        rw [hf]
        rfl
      rw [List.findIdx?_isSome] at hsome
      obtain ⟨d, hd, hp⟩ := List.any_eq_true.mp hsome
      exact ⟨d, hd, by simpa using hp⟩
    · intro _
      by_cases hc : (st.current_day_index != i) = true
      · rw [if_pos hc]
        exact ⟨_, rfl⟩
      · rw [if_neg hc]
        exact ⟨_, rfl⟩

/-- Lemma: `_update_current_hour_index` returns without raising exactly when some
stored hour row matches the wall-clock hour. -/
theorem update_current_hour_index_isOk_iff (now : Clock) (st : Mgr) :
    (∃ p, update_current_hour_index now st = .ok p) ↔
      ∃ r ∈ st.hours, r.hour = (now.hour : Int) := by
  unfold update_current_hour_index
  cases hf : st.hours.findIdx? (fun r => r.hour == (now.hour : Int)) with
  | none =>
    constructor
    · rintro ⟨p, hp⟩
      exact absurd hp (by simp)
    · rintro ⟨r, hr, hh⟩
      rw [List.findIdx?_eq_none_iff] at hf
      have := hf r hr
      simp [hh] at this
  | some i =>
    dsimp only
    constructor
    · intro _
      have hsome : (st.hours.findIdx? (fun r => r.hour == (now.hour : Int))).isSome := by
        rw [hf]
        rfl
      rw [List.findIdx?_isSome] at hsome
      obtain ⟨r, hr, hp⟩ := List.any_eq_true.mp hsome
      exact ⟨r, hr, by simpa using hp⟩
    · intro _
      by_cases hc : (st.current_hour_index == i) = true
      · rw [if_pos hc]
        exact ⟨_, rfl⟩
      · rw [if_neg hc]
        exact ⟨_, rfl⟩

/-- Lemma: `reset_hour_index` returns without raising exactly when some stored hour
row matches the wall-clock hour. -/
theorem reset_hour_index_isOk_iff (now : Clock) (st : Mgr) :
    (∃ p, reset_hour_index now st = .ok p) ↔
      ∃ r ∈ st.hours, r.hour = (now.hour : Int) := by
  rw [← update_current_hour_index_isOk_iff]
  constructor
  · rintro ⟨p, hp⟩
    unfold reset_hour_index at hp
    cases hu : update_current_hour_index now st with
    | error e => rw [hu] at hp; exact absurd hp (by simp)
    | ok q => exact ⟨q, rfl⟩
  · rintro ⟨⟨stA, bA⟩, hu⟩
    unfold reset_hour_index
    rw [hu]
    dsimp only
    by_cases hne : stA.hours_moving_index ≠ (stA.current_hour_index : Int)
    · rw [if_pos hne]
      exact ⟨_, rfl⟩
    · rw [if_neg hne]
      exact ⟨_, rfl⟩

/-- Transport of a decidable whole-result check into the universally
quantified `goodStep` form for a fresh hourly ingest. -/
theorem hourOK_of_build {raw : HourlyJson} {h : Nat}
    (hall : (build_hour_data raw).toOption.all (fun rows => hourOK rows h) = true) :
    ∀ rows, build_hour_data raw = .ok rows → hourOK rows h = true := by
  intro rows heq
  rw [heq] at hall
  simpa using hall

/-- A second `reset_hour_index` call right after a completed one (same wall
clock, no intervening ingest) moves nothing and reports `moved = false`. -/
theorem reset_hour_index_idempotent {now : Clock} {st st1 : Mgr} {b : Bool}
    (h : reset_hour_index now st = .ok (st1, b)) :
    reset_hour_index now st1 = .ok (st1, false) := by
  obtain ⟨i, hf, hcur, hmov, hhours, _⟩ := reset_hour_index_ok_spec h
  have hf1 : st1.hours.findIdx? (fun r => r.hour == (now.hour : Int)) = some i := by
    rw [hhours]
    exact hf
  have hstep : update_current_hour_index now st1 = .ok (st1, false) := by
    unfold update_current_hour_index
    rw [hf1]
    dsimp only
    rw [if_pos (show (st1.current_hour_index == i) = true by simp [hcur])]
  unfold reset_hour_index
  rw [hstep]
  dsimp only
  rw [if_neg (show ¬ st1.hours_moving_index ≠ (st1.current_hour_index : Int) by
    simp [hmov, hcur])]

/-- A second `update_daily_forecasts` call whose payload carries the same
`elaborado` timestamp and whose wall clock yields the same period index is a
no-op returning `updated = false`. -/
theorem update_daily_forecasts_second_call {now1 now2 : Clock} {raw1 raw2 : DailyJson}
    {st st1 : Mgr} {b : Bool}
    (hel : raw2.elaborado = raw1.elaborado)
    (hpi : get_period_index now2 = get_period_index now1)
    (h : update_daily_forecasts now1 raw1 st = .ok (st1, b)) :
    update_daily_forecasts now2 raw2 st1 = .ok (st1, false) := by
  obtain ⟨_, _, _, _, htrue, hfalse⟩ := update_daily_forecasts_ok_spec h
  cases b with
  | true =>
    obtain ⟨hperiod, hlast⟩ := htrue rfl
    have hc : ¬ (raw2.elaborado > st1.daily_last_updated ∨
        get_period_index now2 ≠ st1.current_period_index) := by
      rw [hel, hlast, hpi, hperiod]
      simp
    unfold update_daily_forecasts
    rw [if_neg hc]
  | false =>
    obtain ⟨hst, hstale, hperiodeq⟩ := hfalse rfl
    have hc : ¬ (raw2.elaborado > st1.daily_last_updated ∨
        get_period_index now2 ≠ st1.current_period_index) := by
      rw [hst]
      exact fun hor => hor.elim (fun hgt => hstale (hel ▸ hgt))
        (fun hne => hne (hpi.trans hperiodeq))
    unfold update_daily_forecasts
    rw [if_neg hc]

end ForecastManager

/-! ## Claim theorems -/

/-- Claim C1, amended. For every polling cycle of `_update_forecast` that
returns normally: a failed daily request leaves the `'daily'` payload entry
unchanged, a failed hourly request leaves the `'hourly'` entry unchanged, and
the ready event is set exactly when it was already set or at least one of the
two requests succeeded. Moreover the cycle raises no exception whenever every
request failure is one of the handled kinds (a caught exception class, a
non-200 status, a missing `'datos'` key) and every fetched payload body is a
non-empty JSON array. (The original claim's "never propagates an exception
for any malformed response" is refuted by `C1_update_forecast_counterexample`:
a 200 metadata response with an unparseable body escapes the `except` clause
and propagates.) -/
theorem C1_update_forecast_amended :
    (∀ (net : AemetUpdater.Net) (st st' : AemetUpdater.ForecastState),
      AemetUpdater.update_forecast net st = .ok st' →
      (AemetUpdater.aemet_request net AemetUpdater.daily_url = .ok none →
        st'.daily = st.daily) ∧
      (AemetUpdater.aemet_request net AemetUpdater.hourly_url = .ok none →
        st'.hourly = st.hourly) ∧
      st'.ready = (st.ready || AemetUpdater.request_ok net AemetUpdater.daily_url ||
        AemetUpdater.request_ok net AemetUpdater.hourly_url)) ∧
    (∀ (net : AemetUpdater.Net) (st : AemetUpdater.ForecastState),
      AemetUpdater.benign net AemetUpdater.daily_url →
      AemetUpdater.benign net AemetUpdater.hourly_url →
      ∃ st', AemetUpdater.update_forecast net st = .ok st') :=
  ⟨AemetUpdater.update_forecast_ok_spec, AemetUpdater.update_forecast_of_benign⟩

/-- Concrete instantiation of `C1_update_forecast_amended`: on a network
where every request raises `ConnectionError`, and on one where every request
returns 200 with a dict lacking the `'datos'` key (both handled failures),
the cycle returns normally; on the first run the daily payload is
unchanged. -/
theorem C1_update_forecast_witness :
    ((⟨none, none, false⟩ : AemetUpdater.ForecastState).daily = none ∧
     ∃ st', AemetUpdater.update_forecast AemetUpdater.net_conn_fail
       ⟨none, none, false⟩ = .ok st') ∧
    ∃ st', AemetUpdater.update_forecast AemetUpdater.net_no_datos
      ⟨none, none, false⟩ = .ok st' :=
  ⟨⟨(C1_update_forecast_amended.1 AemetUpdater.net_conn_fail ⟨none, none, false⟩
       ⟨none, none, false⟩ rfl).1 rfl,
    C1_update_forecast_amended.2 AemetUpdater.net_conn_fail ⟨none, none, false⟩ rfl rfl⟩,
   C1_update_forecast_amended.2 AemetUpdater.net_no_datos ⟨none, none, false⟩
     (Or.inr (Or.inl rfl)) (Or.inr (Or.inl rfl))⟩

/-- Counterexample to claim C1 as stated: on a network whose metadata request
returns HTTP 200 with an unparseable JSON body, the polling cycle propagates
an exception to its caller (the uncaught JSON decode error is masked by the
`return` in `finally` into an `UnboundLocalError`). -/
theorem C1_update_forecast_counterexample :
    AemetUpdater.update_forecast AemetUpdater.net_malformed ⟨none, none, false⟩ =
      .error .unboundLocalError := rfl

/-- Claim C2. For the radar file set: (1) starting from an empty directory,
no sequence of inserts ever leaves more than `MAX_RADAR_FILES = 12` files;
(2) with the duplicate check enabled, fetching bytes identical to the
lexically-last file's content writes nothing and reports `file_saved =
false`; (3) inserting into an empty directory after a successful fetch
writes exactly one file and reports `file_saved = true`; (4) when the
directory is at capacity and the insert saves, the lexically-first file is
removed before the new file is written. -/
theorem C2_radar_file_set :
    (∀ ops : List AemetUpdater.InsOp,
      (AemetUpdater.runInserts ops).length ≤ AemetUpdater.MAX_RADAR_FILES) ∧
    (∀ (d : AemetUpdater.Dir) (c : AemetUpdater.Bytes) (name las : String),
      AemetUpdater.isLexLast d las → AemetUpdater.dirRead d las = some c →
      AemetUpdater.radar_files_manager (some c) d name AemetUpdater.MAX_RADAR_FILES false =
        (d, false)) ∧
    (∀ (c : AemetUpdater.Bytes) (name : String) (dncd : Bool),
      AemetUpdater.radar_files_manager (some c) [] name AemetUpdater.MAX_RADAR_FILES dncd =
        ([(name ++ ".gif", c)], true)) ∧
    (∀ (d : AemetUpdater.Dir) (c : AemetUpdater.Bytes) (name first : String) (dncd : Bool),
      d.length = AemetUpdater.MAX_RADAR_FILES → AemetUpdater.isLexFirst d first →
      (AemetUpdater.radar_files_manager (some c) d name
        AemetUpdater.MAX_RADAR_FILES dncd).2 = true →
      (AemetUpdater.radar_files_manager (some c) d name
        AemetUpdater.MAX_RADAR_FILES dncd).1 =
        AemetUpdater.dirWrite (AemetUpdater.dirRemove d first) (name ++ ".gif") c) :=
  ⟨AemetUpdater.runInserts_capacity,
   fun _ _ _ _ hlast hread => AemetUpdater.radar_dedup_skip hlast hread,
   AemetUpdater.radar_bootstrap,
   fun _ _ _ _ _ hlen hfirst hsaved => AemetUpdater.radar_evict_first hlen hfirst hsaved⟩

/-- Concrete instantiation of `C2_radar_file_set`: a duplicate insert into a
two-file directory whose lexically-last file `"b.gif"` holds the fetched
bytes is a no-op, and a capacity-12 eviction removes the lexically-first
file. -/
theorem C2_radar_file_set_witness :
    AemetUpdater.radar_files_manager (some [7]) [("b.gif", [7]), ("a.gif", [1])] "c"
      AemetUpdater.MAX_RADAR_FILES false = ([("b.gif", [7]), ("a.gif", [1])], false) :=
  C2_radar_file_set.2.1 [("b.gif", [7]), ("a.gif", [1])] [7] "c" "b.gif"
    (by decide) (by decide)

/-- Claim C6. For every prior sensor history with strictly decreasing
timestamps and a new sample timestamped at or after the previous newest
entry, one `_combine_and_filter_data` call produces a series with no entry
older than `newest − 7 days`, retaining every prior entry strictly newer
than that cutoff, with the new sample prepended as the newest entry. -/
theorem C6_sensor_history_window :
    ∀ (current : SensorUpdater.Entry) (previous : List SensorUpdater.Entry),
      previous.Pairwise (fun a b => b.ts < a.ts) →
      (∀ p, previous.head? = some p → p.ts ≤ current.ts) →
      (∀ e ∈ SensorUpdater.combine_and_filter_data current previous,
        current.ts - sevenDays < e.ts) ∧
      (∀ e ∈ previous, current.ts - sevenDays < e.ts →
        e ∈ SensorUpdater.combine_and_filter_data current previous) ∧
      (SensorUpdater.combine_and_filter_data current previous).head? = some current :=
  fun current previous hpw hhead => SensorUpdater.combine_spec current previous hpw hhead

/-- Concrete instantiation of `C6_sensor_history_window`: a history of two
entries, one recent and one eight days old. -/
theorem C6_sensor_history_window_witness :
    (∀ e ∈ SensorUpdater.combine_and_filter_data ⟨700000, "21.0", "50.0"⟩
        [⟨600000, "20.0", "51.0"⟩, ⟨10, "19.0", "52.0"⟩],
      (700000 : Int) - sevenDays < e.ts) ∧
    (∀ e ∈ [(⟨600000, "20.0", "51.0"⟩ : SensorUpdater.Entry), ⟨10, "19.0", "52.0"⟩],
      (700000 : Int) - sevenDays < e.ts →
      e ∈ SensorUpdater.combine_and_filter_data ⟨700000, "21.0", "50.0"⟩
        [⟨600000, "20.0", "51.0"⟩, ⟨10, "19.0", "52.0"⟩]) ∧
    (SensorUpdater.combine_and_filter_data ⟨700000, "21.0", "50.0"⟩
      [⟨600000, "20.0", "51.0"⟩, ⟨10, "19.0", "52.0"⟩]).head? =
        some ⟨700000, "21.0", "50.0"⟩ :=
  C6_sensor_history_window ⟨700000, "21.0", "50.0"⟩
    [⟨600000, "20.0", "51.0"⟩, ⟨10, "19.0", "52.0"⟩]
    (by decide) (by intro p hp; cases hp; decide)

/-- Claim C7. For every non-empty time series ordered newest-first with
strictly decreasing timestamps (and equally long value columns), the
statistics computed by `_process_stadistics` — in the sensor worker and in
the sheet worker alike — satisfy: the currents equal the newest entries'
values; the 24-hour maxima and minima are the maximum and minimum over
exactly the entries whose timestamp is strictly newer than
`newest − 24 hours`; and consequently `max_24h ≥ min_24h`. -/
theorem C7_process_stadistics :
    (∀ v : SensorUpdater.SensorVars,
      v.timestamp.Pairwise (fun a b => b < a) →
      v.timestamp ≠ [] →
      v.timestamp.length = v.temperature.length →
      v.timestamp.length = v.humidity.length →
      ∃ (s : SensorUpdater.SensorStats) (t0 : Int),
        SensorUpdater.process_stadistics v = .ok s ∧
        v.timestamp.head? = some t0 ∧
        v.temperature.head? = some s.current_temperature ∧
        v.humidity.head? = some s.current_humidity ∧
        isMaxOf s.max_temperature (values_within_24h v.timestamp v.temperature t0) ∧
        isMinOf s.min_temperature (values_within_24h v.timestamp v.temperature t0) ∧
        isMaxOf s.max_humidity (values_within_24h v.timestamp v.humidity t0) ∧
        isMinOf s.min_humidity (values_within_24h v.timestamp v.humidity t0) ∧
        s.min_temperature ≤ s.max_temperature ∧
        s.min_humidity ≤ s.max_humidity) ∧
    (∀ v : SheetUpdater.SheetVars,
      v.timestamp.Pairwise (fun a b => b < a) →
      v.timestamp ≠ [] →
      v.timestamp.length = v.temperature.length →
      v.timestamp.length = v.humidity.length →
      v.timestamp.length = v.pressure.length →
      ∃ (s : SheetUpdater.SheetStats) (t0 : Int),
        SheetUpdater.process_stadistics v = .ok s ∧
        v.timestamp.head? = some t0 ∧
        v.temperature.head? = some s.current_temperature ∧
        v.humidity.head? = some s.current_humidity ∧
        v.pressure.head? = some s.current_pressure ∧
        isMaxOf s.max_temperature (values_within_24h v.timestamp v.temperature t0) ∧
        isMinOf s.min_temperature (values_within_24h v.timestamp v.temperature t0) ∧
        isMaxOf s.max_humidity (values_within_24h v.timestamp v.humidity t0) ∧
        isMinOf s.min_humidity (values_within_24h v.timestamp v.humidity t0) ∧
        s.min_temperature ≤ s.max_temperature ∧
        s.min_humidity ≤ s.max_humidity) :=
  ⟨SensorUpdater.sensor_stats_spec, SheetUpdater.sheet_stats_spec⟩

/-- Concrete instantiation of `C7_process_stadistics`: a two-entry sensor
series, both entries within 24 hours of the newest. -/
theorem C7_process_stadistics_witness :
    ∃ (s : SensorUpdater.SensorStats) (t0 : Int),
      SensorUpdater.process_stadistics ⟨[100, 0], [5, 7], [3, 2]⟩ = .ok s ∧
      ([100, 0] : List Int).head? = some t0 ∧
      ([5, 7] : List ℚ).head? = some s.current_temperature ∧
      ([3, 2] : List ℚ).head? = some s.current_humidity ∧
      isMaxOf s.max_temperature (values_within_24h [100, 0] [5, 7] t0) ∧
      isMinOf s.min_temperature (values_within_24h [100, 0] [5, 7] t0) ∧
      isMaxOf s.max_humidity (values_within_24h [100, 0] [3, 2] t0) ∧
      isMinOf s.min_humidity (values_within_24h [100, 0] [3, 2] t0) ∧
      s.min_temperature ≤ s.max_temperature ∧
      s.min_humidity ≤ s.max_humidity :=
  C7_process_stadistics.1 ⟨[100, 0], [5, 7], [3, 2]⟩ (by decide) (by decide) rfl rfl

/-- Claim C10. Every completed polling cycle of the spreadsheet worker ends
with `sheet_ready` set before the worker sleeps; in particular a cycle whose
fetch raised one of the caught exception classes completes with the payload
and statistics completely unchanged and the ready flag set, so a consumer
blocked on the flag is woken once per cycle whether or not new data
arrived. -/
theorem C10_sheet_ready_every_cycle :
    (∀ (outcome : SheetUpdater.FetchOutcome) (st st' : SheetUpdater.SheetState),
      SheetUpdater.run_cycle outcome st = .ok st' → st'.ready = true) ∧
    (∀ (e : Exc) (st : SheetUpdater.SheetState),
      SheetUpdater.caught_by_sheet e = true →
      SheetUpdater.run_cycle (.raise e) st = .ok { st with ready := true }) :=
  ⟨SheetUpdater.run_cycle_ready, SheetUpdater.run_cycle_caught⟩

/-- Concrete instantiation of `C10_sheet_ready_every_cycle`: a cycle whose
fetch raised `HttpError` leaves the data untouched and sets the flag. -/
theorem C10_sheet_ready_every_cycle_witness :
    SheetUpdater.run_cycle (.raise .httpError)
      ⟨⟨[], [], [], []⟩, ⟨0, 0, 0, 0, 0, 0, 0⟩, false⟩ =
      .ok ⟨⟨[], [], [], []⟩, ⟨0, 0, 0, 0, 0, 0, 0⟩, true⟩ :=
  C10_sheet_ready_every_cycle.2 .httpError
    ⟨⟨[], [], [], []⟩, ⟨0, 0, 0, 0, 0, 0, 0⟩, false⟩ rfl

/-- Claim C3. For every presenter state and every integer delta:
`move_hour_index(delta)` returns true and moves the cursor by delta exactly
when `currentHourIndex ≤ hoursMovingIndex + delta` and
`hoursMovingIndex + delta < len(hours) − 12`; otherwise it returns false
and leaves the cursor unchanged; in particular a `+1` move at
`hoursMovingIndex + 1 = len(hours) − 12` is rejected. -/
theorem C3_move_hour_index :
    ∀ (st : ForecastManager.Mgr) (delta : Int),
      ((ForecastManager.move_hour_index delta st).2 = true ↔
        ((st.current_hour_index : Int) ≤ st.hours_moving_index + delta ∧
          st.hours_moving_index + delta < (st.hours.length : Int) - 12)) ∧
      (((st.current_hour_index : Int) ≤ st.hours_moving_index + delta ∧
          st.hours_moving_index + delta < (st.hours.length : Int) - 12) →
        ForecastManager.move_hour_index delta st =
          ({ st with hours_moving_index := st.hours_moving_index + delta }, true)) ∧
      (¬ ((st.current_hour_index : Int) ≤ st.hours_moving_index + delta ∧
          st.hours_moving_index + delta < (st.hours.length : Int) - 12) →
        ForecastManager.move_hour_index delta st = (st, false)) ∧
      (st.hours_moving_index + 1 = (st.hours.length : Int) - 12 →
        ForecastManager.move_hour_index 1 st = (st, false)) := by
  intro st delta
  refine ⟨⟨?_, ?_⟩, ?_, ?_, ?_⟩
  · intro htrue
    by_cases hc : (st.current_hour_index : Int) ≤ st.hours_moving_index + delta ∧
        st.hours_moving_index + delta < (st.hours.length : Int) - 12
    · exact hc
    · unfold ForecastManager.move_hour_index at htrue
      rw [if_neg hc] at htrue
      exact absurd htrue (by simp)
  · intro hc
    unfold ForecastManager.move_hour_index
    rw [if_pos hc]
  · intro hc
    unfold ForecastManager.move_hour_index
    rw [if_pos hc]
  · intro hc
    unfold ForecastManager.move_hour_index
    rw [if_neg hc]
  · intro hb
    unfold ForecastManager.move_hour_index
    rw [if_neg (fun hc => absurd (hb ▸ hc.2) (lt_irrefl _))]

/-- Concrete instantiation of `C3_move_hour_index`: with 13 stored rows and
the cursor at 0, `move_hour_index(+1)` hits the `len(hours) − 12` boundary
and is rejected. -/
theorem C3_move_hour_index_witness :
    ForecastManager.move_hour_index 1
      { ForecastManager.initMgr ⟨1, 0⟩ with
        hours := List.replicate 13 ForecastManager.default_hour_row } =
      ({ ForecastManager.initMgr ⟨1, 0⟩ with
        hours := List.replicate 13 ForecastManager.default_hour_row }, false) :=
  (C3_move_hour_index
    { ForecastManager.initMgr ⟨1, 0⟩ with
      hours := List.replicate 13 ForecastManager.default_hour_row } 1).2.2.2
    (by decide)

/-- Claim C4, amended. The 12-row window invariant
(`0 ≤ hoursMovingIndex` and `hoursMovingIndex + 12 ≤ len(hours)`) holds in
the initial state and in every state reachable by presenter calls that
return without raising, provided every cursor reset finds the wall-clock
hour at least 12 rows before the end of the hours list in force (`hourOK`
of exactly the list the reset scans: the freshly built rows on a fresh
hourly ingest, the stored rows on a stale hourly ingest or a direct reset;
daily ingests and moves are unconstrained). Without that proviso the claim
is false: `C4_window_invariant_counterexample` reaches a violating state
with a single `update_hourly_forecasts` call. -/
theorem C4_window_invariant_amended :
    ∀ (now : ForecastManager.Clock) (st : ForecastManager.Mgr),
      ForecastManager.ReachesGood (ForecastManager.initMgr now) st →
      ForecastManager.windowInv st := by
  intro now st h
  induction h with
  | refl => exact ForecastManager.windowInv_initMgr now
  | step s hreach hgood happ ih =>
    exact ForecastManager.applyStep_preserves_windowInv ih hgood happ

/-- Concrete instantiation of `C4_window_invariant_amended`: one
well-behaved `update_hourly_forecasts` ingest (14 rows, the wall-clock hour
at index 0) from the initial state returns normally and lands in a state
satisfying the window invariant. -/
theorem C4_window_invariant_witness :
    ∃ (st' : ForecastManager.Mgr) (b : Bool),
      ForecastManager.applyStep
        (.hourly ⟨1, 0⟩ ForecastManager.wit_hourly) (ForecastManager.initMgr ⟨1, 0⟩) =
        .ok (st', b) ∧
      ForecastManager.windowInv st' := by
  have hok : ∃ p, ForecastManager.applyStep
      (.hourly ⟨1, 0⟩ ForecastManager.wit_hourly) (ForecastManager.initMgr ⟨1, 0⟩) =
      .ok p := by
    cases hv : ForecastManager.applyStep (.hourly ⟨1, 0⟩ ForecastManager.wit_hourly)
        (ForecastManager.initMgr ⟨1, 0⟩) with
    | ok p => exact ⟨p, rfl⟩
    | error e =>
      have hsome : (ForecastManager.applyStep (.hourly ⟨1, 0⟩ ForecastManager.wit_hourly)
          (ForecastManager.initMgr ⟨1, 0⟩)).toOption.isSome = true := by decide
      rw [hv] at hsome
      simp [Except.toOption] at hsome
  obtain ⟨⟨st', b⟩, happ⟩ := hok
  refine ⟨st', b, happ, ?_⟩
  refine C4_window_invariant_amended ⟨1, 0⟩ st' ?_
  refine ForecastManager.ReachesGood.step (.hourly ⟨1, 0⟩ ForecastManager.wit_hourly)
    (ForecastManager.ReachesGood.refl _) ?_ happ
  refine ⟨fun _ => ForecastManager.hourOK_of_build (by decide), fun hstale => ?_⟩
  exact absurd (by decide) hstale

/-- Counterexample to claim C4 as stated: one `update_hourly_forecasts`
call from the initial state, with a payload whose only row matching
wall-clock hour 5 is the 14th of 14 rows, returns normally
(`updated = true`) yet leaves `hours_moving_index = 13` with only 1 row at
or after the cursor — the fixed 12-entry window no longer fits. -/
theorem C4_window_invariant_counterexample :
    (ForecastManager.update_hourly_forecasts ⟨1, 5⟩ ForecastManager.cex_tail_hourly
        (ForecastManager.initMgr ⟨1, 5⟩)).toOption.map
      (fun p => (p.1.hours.length, p.1.hours_moving_index, p.2,
        decide (ForecastManager.windowInv p.1))) =
      some (14, 13, true, false) := by
  decide

/-- Claim C5, amended. `move_hour_index` performs no list access and cannot
raise; the presenter's scanning helpers are safe exactly on matching data:
`_update_current_day_index` returns without raising iff the payload has a
day entry dated today, and `_update_current_hour_index` /
`reset_hour_index` return without raising iff some stored hour row matches
the wall-clock hour. For payloads or stored rows without a match the scan
runs past the end of the list and raises `IndexError`
(`C5_presenter_index_safety_counterexample`), so the original "never raises
an index error for any payload and any wall-clock time" is false. -/
theorem C5_presenter_index_safety_amended :
    (∀ (now : ForecastManager.Clock) (raw : ForecastManager.DailyJson)
        (st : ForecastManager.Mgr),
      (∃ st', ForecastManager.update_current_day_index now raw st = .ok st') ↔
        ∃ d ∈ raw.dias, d.fecha.day = now.day) ∧
    (∀ (now : ForecastManager.Clock) (st : ForecastManager.Mgr),
      (∃ p, ForecastManager.update_current_hour_index now st = .ok p) ↔
        ∃ r ∈ st.hours, r.hour = (now.hour : Int)) ∧
    (∀ (now : ForecastManager.Clock) (st : ForecastManager.Mgr),
      (∃ p, ForecastManager.reset_hour_index now st = .ok p) ↔
        ∃ r ∈ st.hours, r.hour = (now.hour : Int)) :=
  ⟨ForecastManager.update_current_day_index_isOk_iff,
   ForecastManager.update_current_hour_index_isOk_iff,
   ForecastManager.reset_hour_index_isOk_iff⟩

/-- Concrete instantiation of `C5_presenter_index_safety_amended`: at wall
hour 0 the placeholder rows match, so `reset_hour_index` returns without
raising. -/
theorem C5_presenter_index_safety_witness :
    ∃ p, ForecastManager.reset_hour_index ⟨1, 0⟩ (ForecastManager.initMgr ⟨1, 0⟩) =
      .ok p :=
  (C5_presenter_index_safety_amended.2.2 ⟨1, 0⟩ (ForecastManager.initMgr ⟨1, 0⟩)).mpr
    ⟨ForecastManager.default_hour_row, by decide, by decide⟩

/-- Counterexample to claim C5 as stated: at wall-clock hour 5, a stale
hourly payload makes `update_hourly_forecasts` scan the placeholder rows
(all labelled hour 0) for hour 5 and raise `IndexError`. -/
theorem C5_presenter_index_safety_counterexample :
    ForecastManager.update_hourly_forecasts ⟨1, 5⟩ ForecastManager.cex_stale_hourly
      (ForecastManager.initMgr ⟨1, 5⟩) =
      .error (.indexError, ForecastManager.initMgr ⟨1, 5⟩) := by
  decide

/-- Claim C8. If `update_daily_forecasts` is called twice with payloads
carrying the identical `elaborado` timestamp and the wall-clock period index
is the same at both calls, the second call returns `updated = false` and
leaves every field exactly as the first call left it. -/
theorem C8_daily_ingest_no_op_on_same_timestamp :
    ∀ (now1 now2 : ForecastManager.Clock) (raw1 raw2 : ForecastManager.DailyJson)
      (st st1 : ForecastManager.Mgr) (b : Bool),
      raw2.elaborado = raw1.elaborado →
      ForecastManager.get_period_index now2 = ForecastManager.get_period_index now1 →
      ForecastManager.update_daily_forecasts now1 raw1 st = .ok (st1, b) →
      ForecastManager.update_daily_forecasts now2 raw2 st1 = .ok (st1, false) :=
  fun _ _ _ _ _ _ _ hel hpi h =>
    ForecastManager.update_daily_forecasts_second_call hel hpi h

/-- Concrete instantiation of `C8_daily_ingest_no_op_on_same_timestamp`: a
stale payload ingested twice at the same wall clock. -/
theorem C8_daily_ingest_no_op_witness :
    ForecastManager.update_daily_forecasts ⟨1, 0⟩ ⟨0, []⟩
      (ForecastManager.initMgr ⟨1, 0⟩) =
      .ok (ForecastManager.initMgr ⟨1, 0⟩, false) :=
  C8_daily_ingest_no_op_on_same_timestamp ⟨1, 0⟩ ⟨1, 0⟩ ⟨0, []⟩ ⟨0, []⟩
    (ForecastManager.initMgr ⟨1, 0⟩) (ForecastManager.initMgr ⟨1, 0⟩) false
    rfl rfl (by decide)

/-- Claim C9. `reset_hour_index` is idempotent: right after a completed
call, with the same wall clock and no intervening hourly ingest, a second
call returns `moved = false` and changes nothing. -/
theorem C9_reset_hour_index_idempotent :
    ∀ (now : ForecastManager.Clock) (st st1 : ForecastManager.Mgr) (b : Bool),
      ForecastManager.reset_hour_index now st = .ok (st1, b) →
      ForecastManager.reset_hour_index now st1 = .ok (st1, false) :=
  fun _ _ _ _ h => ForecastManager.reset_hour_index_idempotent h

/-- Concrete instantiation of `C9_reset_hour_index_idempotent` at the
initial state. -/
theorem C9_reset_hour_index_idempotent_witness :
    ForecastManager.reset_hour_index ⟨1, 0⟩ (ForecastManager.initMgr ⟨1, 0⟩) =
      .ok (ForecastManager.initMgr ⟨1, 0⟩, false) :=
  C9_reset_hour_index_idempotent ⟨1, 0⟩ (ForecastManager.initMgr ⟨1, 0⟩)
    (ForecastManager.initMgr ⟨1, 0⟩) false (by decide)
